import Mathlib

/-!
Shallow embedding of the chess-r engine core (src/bitboard.rs, src/move.rs,
src/board.rs, src/opponents/mod.rs) and proofs about the spec's claims.

Conventions of the embedding:
* Rust u64 bitboards become a Nat kept below 2^64 (complement is xor with
  2^64 - 1); Rust usize arithmetic that can wrap is modelled with explicit
  reduction mod 2^64 (release-mode wrapping semantics).
* Rust functions that can panic are modelled with an outer Option layer
  (none = panic) where a claim depends on it; total in-range helpers are
  used where every call site of the source is in range.
* The Rust BoardState fields that are initialized in default() and never
  written afterwards (edge_compute, king_compute, knight_compute,
  pawn_attack_compute, pawn_push_compute) are modelled as global pure
  functions instead of record fields; all remaining fields are kept.
-/

/-- Modulus of Rust u64 arithmetic. -/
def U64MOD : Nat := 18446744073709551616

/-- Largest u64 value, used for bitwise complement. -/
def U64MAX : Nat := U64MOD - 1

/-- Modulus of Rust u32 arithmetic. -/
def U32MOD : Nat := 4294967296

/-- Rust `as usize` on a possibly negative integer (release wrapping). -/
def usizeOfInt (i : Int) : Nat := (i % (U64MOD : Int)).toNat

/-- Rust usize subtraction with release-mode wrapping. -/
def usizeSub (a b : Nat) : Nat := usizeOfInt ((a : Int) - (b : Int))

/-- Team enum from src/bitboard.rs. -/
inductive Team where
  | White
  | Black
  | Both
  | Red
  | None
deriving DecidableEq, Repr

/-- Discriminant of the Team enum (`Team as usize`). -/
def Team.toIdx : Team → Nat
  | .White => 0
  | .Black => 1
  | .Both => 2
  | .Red => 3
  | .None => 4

/-- Team::opponent from src/bitboard.rs. -/
def Team.opponent (t : Team) : Team :=
  if t = Team.Black then Team.White else Team.Black

/-- PieceType enum from src/bitboard.rs. -/
inductive PieceType where
  | None
  | Pawn
  | Rook
  | Bishop
  | Knight
  | Queen
  | King
deriving DecidableEq, Repr

/-- Discriminant of the PieceType enum (`PieceType as usize`). -/
def PieceType.toIdx : PieceType → Nat
  | .None => 0
  | .Pawn => 1
  | .Rook => 2
  | .Bishop => 3
  | .Knight => 4
  | .Queen => 5
  | .King => 6

/-- PIECE_TYPE_ARRAY from src/bitboard.rs. -/
def pieceTypeArray : List PieceType :=
  [PieceType.None, PieceType.Pawn, PieceType.Rook, PieceType.Bishop,
   PieceType.Knight, PieceType.Queen, PieceType.King]

/-- Piece struct from src/move.rs. -/
structure Piece where
  piece_type : PieceType
  team : Team
  position : Nat
deriving DecidableEq, Repr

/-- Move struct from src/move.rs. -/
structure Move where
  start : Nat
  target : Nat
  captures : Option Piece
  is_pawn_double : Bool
  is_castle : Bool
deriving DecidableEq, Repr

/-- Move::default() (all fields zero / none / false). -/
def Move.default : Move :=
  { start := 0, target := 0, captures := none,
    is_pawn_double := false, is_castle := false }

/-- MoveError enum from src/move.rs. -/
inductive MoveError where
  | AttackedAlly
  | NoUnit
  | NotAMove
deriving DecidableEq, Repr

deriving instance DecidableEq for Except

/-- Bitboard struct from src/bitboard.rs: a u64 occupancy mask. -/
structure Bitboard where
  state : Nat
deriving DecidableEq, Repr

/-- Bitboard bitwise or (BitOr impl). -/
def Bitboard.bor (a b : Bitboard) : Bitboard := { state := a.state ||| b.state }

/-- Bitboard bitwise and (BitAnd impl). -/
def Bitboard.band (a b : Bitboard) : Bitboard := { state := a.state &&& b.state }

/-- Bitboard bitwise complement (Not impl, u64 semantics). -/
def Bitboard.bnot (a : Bitboard) : Bitboard := { state := a.state ^^^ U64MAX }

/-- Unchecked single-bit write, as done through view_bits_mut().set(i, v) in
the source; every source call site uses an in-range index (Rust would panic
otherwise). -/
def Bitboard.setBitRaw (b : Bitboard) (i : Nat) (v : Bool) : Bitboard :=
  if v then { state := b.state ||| (1 <<< i) }
  else { state := b.state &&& (U64MAX ^^^ (1 <<< i)) }

/-- Bitboard::set_bit from src/bitboard.rs: out-of-range indices are a no-op. -/
def Bitboard.setBit (b : Bitboard) (i : Nat) (v : Bool) : Bitboard :=
  if i < 64 then b.setBitRaw i v else b

/-- Bitboard::get_bit from src/bitboard.rs: false for out-of-range indices. -/
def Bitboard.getBit (b : Bitboard) (i : Nat) : Bool :=
  if i < 64 then b.state.testBit i else false

/-- File letters list used by the algebraic-notation conversions. -/
def fileChars : List Char := ['a', 'b', 'c', 'd', 'e', 'f', 'g', 'h']

/-- File letter strings used by the index-to-algebraic conversion. -/
def fileStrs : List String := ["a", "b", "c", "d", "e", "f", "g", "h"]

/-- char::to_digit(10). -/
def charToDigit10 (c : Char) : Option Nat :=
  if c.isDigit then some (c.toNat - 48) else none

/-- iter().position(...) over a character list. -/
def positionOf (l : List Char) (c : Char) : Option Nat :=
  match l with
  | [] => none
  | x :: t => if x = c then some 0 else (positionOf t c).map (fun n => n + 1)

/-- Bitboard::al_notation_to_bit_idx from src/bitboard.rs. The outer Option
models a panic: the source indexes split[0] unconditionally and split[1]
once the first character matched a file letter, so it panics on an empty
string, and on a 1-character string whose character is a file letter. The
rank digit is combined with wrapping u32 arithmetic ((rank_id - 1) * 8 +
file_id) and is not range checked. -/
def alNotationToBitIdx (s : String) : Option (Option Nat) :=
  match s.data with
  | [] => none
  | c0 :: rest =>
    match positionOf fileChars c0 with
    | some fileId =>
      match rest with
      | [] => none
      | c1 :: _ =>
        match charToDigit10 c1 with
        | some rankId =>
          some (some ((((rankId + U32MOD - 1) % U32MOD) * 8 % U32MOD + fileId) % U32MOD))
        | none => some none
    | none => some none

/-- Bitboard::bit_idx_to_al_notation from src/bitboard.rs. -/
def bitIdxToAlNotation (bit : Nat) : Option String :=
  if bit < 64 then
    some ((fileStrs.getD (bit % 8) "") ++ toString (bit / 8 + 1))
  else none

/-- Per-square entry of compute_edges from src/board.rs: distances to the
board edge in direction order [N, S, E, W, NE, SE, NW, SW]. -/
def computeEdgesAt (squarePos : Nat) : List Nat :=
  let rank := squarePos / 8
  let file := squarePos % 8
  let topDist := 7 - rank
  let bottomDist := rank
  let leftDist := file
  let rightDist := 7 - file
  [topDist, bottomDist, rightDist, leftDist,
   min topDist rightDist, min bottomDist rightDist,
   min topDist leftDist, min bottomDist leftDist]

/-- Per-entry form of precalc_pawn_attack::<64> from src/move.rs
(teamIdx 0 = White, 1 = Black). -/
def pawnAttackComputeAt (teamIdx squareTarget : Nat) : Bitboard :=
  let rad : Int := if teamIdx = 0 then 8 else -8
  let sq : Int := squareTarget
  let target := sq + rad - rad.sign
  let target2 := sq + rad + rad.sign
  let currentFile := Int.tmod sq 8
  let targetFile := Int.tmod target 8
  let target2File := Int.tmod target2 8
  let isFileJumping := target < 0 ∨ (targetFile - currentFile).natAbs > 3
  let isFileJumping2 := target2 < 0 ∨ (target2File - currentFile).natAbs > 3
  ((Bitboard.mk 0).setBit (usizeOfInt target) (!(decide isFileJumping))).setBit
    (usizeOfInt target2) (!(decide isFileJumping2))

/-- Per-entry form of precalc_pawn_push::<64> from src/move.rs. -/
def pawnPushComputeAt (teamIdx squareTarget : Nat) : Bitboard :=
  let rad : Int := if teamIdx = 0 then 8 else -8
  let sq : Int := squareTarget
  let isRankedOut := Int.fdiv sq 8 = 7 ∨ Int.fdiv sq 8 = 0
  let isAtStart := if teamIdx = 0 then Int.fdiv sq 8 = 1 else Int.fdiv sq 8 = 6
  ((Bitboard.mk 0).setBit (usizeOfInt (sq + rad)) (!(decide isRankedOut))).setBit
    (usizeOfInt (sq + rad + rad)) (decide isAtStart)

/-- Knight offsets from precalc_knight_attack / compute_knight. -/
def knightOffsets : List Int := [10, 17, -10, -17, 15, -15, 6, -6]

/-- Per-entry form of precalc_knight_attack::<64> from src/move.rs. -/
def knightComputeAt (squareTarget : Nat) : Bitboard :=
  let sq : Int := squareTarget
  knightOffsets.foldl
    (fun bb off =>
      let target := sq + off
      let targetFile := Int.tmod target 8
      let validMove := (targetFile - Int.tmod sq 8).natAbs ≤ 3
      bb.setBit (usizeOfInt target) (decide validMove))
    (Bitboard.mk 0)

/-- Per-entry form of precalc_king_attack::<64> from src/move.rs, including
its quirky h-file test (square % 7 == 0). -/
def kingComputeAt (teamIdx squareTarget : Nat) : Bitboard :=
  let rad : Int := if teamIdx = 0 then 8 else -8
  let sq : Int := squareTarget
  let isAFile := Int.tmod sq 8 = 0
  let isHFile := Int.tmod sq 7 = 0
  let b0 := (Bitboard.mk 0).setBit (usizeOfInt (sq + rad - 1)) (!(decide isAFile))
  let b1 := b0.setBit (usizeOfInt (sq + rad + 1)) (!(decide isHFile))
  let b2 := b1.setBit (usizeOfInt (sq - 1)) (!(decide isAFile))
  let b3 := b2.setBit (usizeOfInt (sq + 1)) (!(decide isHFile))
  let b4 := b3.setBit (usizeOfInt (sq + rad)) true
  let b5 := b4.setBit (usizeOfInt (sq - rad)) true
  let b6 := b5.setBit (usizeOfInt (sq - rad - 1)) (!(decide isAFile))
  b6.setBit (usizeOfInt (sq - rad + 1)) (!(decide isHFile))

/-- Absolute difference on Nat (Rust usize::abs_diff). -/
def absDiff (a b : Nat) : Nat := if b ≤ a then a - b else b - a

/-- In-place update of one list entry (no-op out of range, like the Rust
in-bounds array writes the source performs). -/
def listModify {α : Type} (l : List α) (i : Nat) (f : α → α) : List α :=
  match l, i with
  | [], _ => []
  | a :: t, 0 => f a :: t
  | a :: t, n + 1 => a :: listModify t n f

/-- Clear or set one bit of the u8 castling-rights mask
(castling_rights.view_bits_mut().set(i, v) in the source). -/
def u8SetBit (n i : Nat) (v : Bool) : Nat :=
  if v then n ||| (1 <<< i) else n &&& (255 ^^^ (1 <<< i))

/-- BoardState from src/board.rs. The five precomputed tables the Rust
struct carries (edge_compute, king_compute, knight_compute,
pawn_attack_compute, pawn_push_compute) are written only by default() and
are modelled as the global functions above; every mutable field is kept.
board_pieces is the 3 (White, Black, Both) by 7 (piece types) bitboard
array, capture_bitboard the 2-entry per-team attack cache. -/
structure BoardState where
  board_pieces : List (List Bitboard)
  castling_rights : Nat
  fifty_move_clock : Int
  en_passant_square : Option Nat
  turn_clock : Int
  ply_clock : Int
  active_team_checkmate : Bool
  piece_list : List PieceType
  capture_bitboard : List Bitboard
  en_passant_turn : Option Int
  active_team : Team
deriving DecidableEq, Repr

/-- BoardState::default() from src/board.rs. -/
def defaultState : BoardState :=
  { board_pieces := List.replicate 3 (List.replicate 7 (Bitboard.mk 0))
    castling_rights := 0
    fifty_move_clock := 0
    en_passant_square := none
    turn_clock := 1
    ply_clock := 0
    active_team_checkmate := false
    piece_list := List.replicate 64 PieceType.None
    capture_bitboard := [Bitboard.mk 0, Bitboard.mk 0]
    en_passant_turn := none
    active_team := Team.White }

/-- Read board_pieces[t][p]. -/
def bpGet (bp : List (List Bitboard)) (t p : Nat) : Bitboard :=
  (bp.getD t []).getD p (Bitboard.mk 0)

/-- Write board_pieces[t][p]. -/
def bpSet (bp : List (List Bitboard)) (t p : Nat) (v : Bitboard) : List (List Bitboard) :=
  listModify bp t (fun row => row.set p v)

/-- BoardState::get_team_coverage from src/board.rs: OR of the team's seven
piece bitboards. -/
def getTeamCoverage (b : BoardState) (team : Team) : Bitboard :=
  (b.board_pieces.getD team.toIdx []).foldl (fun acc pb => acc.bor pb) (Bitboard.mk 0)

/-- BoardState::get_square_team from src/board.rs: White coverage first,
then Black, else Team::None. (The source would panic on a square index
at or above 64; every use below is in range.) -/
def getSquareTeam (b : BoardState) (squareIdx : Nat) : Team :=
  if (getTeamCoverage b Team.White).state.testBit squareIdx then Team.White
  else if (getTeamCoverage b Team.Black).state.testBit squareIdx then Team.Black
  else Team.None

/-- BoardState::get_piece_at_pos from src/board.rs. -/
def getPieceAtPos (b : BoardState) (pos : Nat) : Option Piece :=
  let targetPieceType := b.piece_list.getD pos PieceType.None
  if targetPieceType ≠ PieceType.None then
    some { piece_type := targetPieceType, team := getSquareTeam b pos, position := pos }
  else none

/-- is_square_attackable from src/move.rs. -/
def isSquareAttackable (b : BoardState) (piece : Piece) (possibleTarget : Nat) : Bool :=
  let targetTeam := getSquareTeam b possibleTarget
  let targetPieceType := b.piece_list.getD possibleTarget PieceType.None
  if targetPieceType = PieceType.None then true
  else decide (targetTeam ≠ piece.team)

/-- psuedolegalize_move from src/move.rs: append the move when the condition
holds, and write the condition into the bitboard bit of the target square. -/
def psuedolegalizeMove (acc : Bitboard × List Move) (cmove : Move) (condition : Bool) :
    Bitboard × List Move :=
  (acc.1.setBitRaw cmove.target condition,
   if condition then acc.2 ++ [cmove] else acc.2)

/-- DIRECTION_OFFSETS from src/move.rs (N, S, E, W, NE, SE, NW, SW). -/
def directionOffsets : List Int := [8, -8, 1, -1, 9, -7, 7, -9]

/-- Inner raycast loop of compute_slider: steps outward until the edge
distance is exhausted, an out-of-board target is produced, or a piece
blocks the ray. -/
def raycastLoop (b : BoardState) (piece : Piece) (dir : Int) :
    Nat → Nat → Bitboard × List Move → Bitboard × List Move
  | 0, _, acc => acc
  | r + 1, step, acc =>
    let possibleTarget := usizeOfInt ((piece.position : Int) + (step : Int) * dir)
    if possibleTarget < b.piece_list.length then
      let targetPieceType := b.piece_list.getD possibleTarget PieceType.None
      let targetPiece := getPieceAtPos b possibleTarget
      let resultingMove : Move :=
        { start := piece.position, target := possibleTarget, captures := targetPiece,
          is_pawn_double := false, is_castle := false }
      let acc2 := psuedolegalizeMove acc resultingMove (isSquareAttackable b piece possibleTarget)
      if targetPieceType ≠ PieceType.None then acc2
      else raycastLoop b piece dir r (step + 1) acc2
    else acc

/-- compute_slider from src/move.rs (rook, bishop, queen and king rays). -/
def computeSlider (b : BoardState) (piece : Piece) : Bitboard × List Move :=
  let indexStart := if piece.piece_type = PieceType.Bishop then 4 else 0
  let indexEnd := if piece.piece_type = PieceType.Rook then 4 else 8
  (List.range 8).foldl
    (fun acc index =>
      if indexStart ≤ index ∧ index < indexEnd then
        let indexedDirection := (computeEdgesAt piece.position).getD index 0
        if 1 ≤ indexedDirection then
          let depth := if piece.piece_type = PieceType.King then 1 else indexedDirection
          raycastLoop b piece (directionOffsets.getD index 0) depth 1 acc
        else acc
      else acc)
    (Bitboard.mk 0, [])

/-- bitboard_to_movelist from src/move.rs: one move per set bit, ascending.
(The team match of the source is unreachable for teams other than White
and Black; those arms are mapped to edge distance 0.) -/
def bitboardToMovelist (b : BoardState) (piece : Piece) (bitboard : Bitboard) : List Move :=
  (List.range 64).foldl
    (fun acc index =>
      if bitboard.state.testBit index then
        let farEdgeDistForPawns :=
          match piece.team with
          | Team.Black => (computeEdgesAt piece.position).getD 1 0
          | Team.White => (computeEdgesAt piece.position).getD 0 0
          | _ => 0
        acc ++ [{ start := piece.position, target := index,
                  captures := getPieceAtPos b index,
                  is_pawn_double := decide (farEdgeDistForPawns = 6) &&
                    decide (piece.piece_type = PieceType.Pawn) &&
                    decide (absDiff index piece.position = 16),
                  is_castle := false }]
      else acc)
    []

/-- get_precomputed_king from src/move.rs. -/
def getPrecomputedKing (b : BoardState) (piece : Piece) : Bitboard × List Move :=
  let teamCov := getTeamCoverage b piece.team
  let kingBit := kingComputeAt piece.team.toIdx piece.position
  let bitboard := (Bitboard.mk 0).bor (kingBit.band teamCov.bnot)
  (bitboard, bitboardToMovelist b piece bitboard)

/-- get_precomputed_pawn from src/move.rs (usize subtraction wraps as in
release builds; the two step squares are only read through guarded
get_bit / set_bit). -/
def getPrecomputedPawn (b : BoardState) (piece : Piece) : Bitboard × List Move :=
  let teamCov := (getTeamCoverage b piece.team).bor (getTeamCoverage b piece.team.opponent)
  let enemyCov := getTeamCoverage b piece.team.opponent
  let pawnStep1 :=
    match piece.team with
    | Team.Black => usizeSub piece.position 8
    | _ => piece.position + 8
  let pawnStep2 :=
    match piece.team with
    | Team.Black => usizeSub piece.position 16
    | _ => piece.position + 16
  let farEdgeDistForPawns :=
    match piece.team with
    | Team.Black => (computeEdgesAt piece.position).getD 1 0
    | _ => (computeEdgesAt piece.position).getD 0 0
  let pushBit := pawnPushComputeAt piece.team.toIdx piece.position
  let pushBit :=
    if farEdgeDistForPawns = 6 ∧ piece.piece_type = PieceType.Pawn then
      let sliderBlockState := pushBit.getBit pawnStep1
      pushBit.setBit pawnStep2 sliderBlockState
    else pushBit
  let pushBit := pushBit.band teamCov.bnot
  let pushAttack := (pawnAttackComputeAt piece.team.toIdx piece.position).band enemyCov
  let pawnBits := pushAttack.bor pushBit
  (pawnBits, bitboardToMovelist b piece pawnBits)

/-- get_precomputed_knight from src/move.rs. -/
def getPrecomputedKnight (b : BoardState) (piece : Piece) : Bitboard × List Move :=
  let teamCov := getTeamCoverage b piece.team
  let knightBits := (knightComputeAt piece.position).band teamCov.bnot
  (knightBits, bitboardToMovelist b piece knightBits)

/-- Inclusive integer range of consecutive offsets (for the 3-offset pawn
view of compute_pawn). -/
def intRangeIncl (lo hi : Int) : List Int :=
  (List.range (hi - lo + 1).toNat).map (fun k => lo + (k : Int))

/-- Inner step loop of compute_pawn: out-of-board and file-jumping targets
are skipped (continue); an occupied target ends the ray (break) after its
conditional append. -/
def pawnStepLoop (b : BoardState) (piece : Piece) (offset : Int) (offsetIndex : Nat) :
    Nat → Nat → Bitboard × List Move → Bitboard × List Move
  | 0, _, acc => acc
  | r + 1, step, acc =>
    let possibleTarget := usizeOfInt ((piece.position : Int) + offset * (step : Int))
    if possibleTarget < b.piece_list.length then
      let targetFile := possibleTarget % 8
      let startFile := piece.position % 8
      if absDiff targetFile startFile > 3 then
        pawnStepLoop b piece offset offsetIndex r (step + 1) acc
      else
        let targetPieceType := b.piece_list.getD possibleTarget PieceType.None
        let targetPiece := getPieceAtPos b possibleTarget
        let resultingMove : Move :=
          { start := piece.position, target := possibleTarget, captures := targetPiece,
            is_pawn_double := decide (step = 2), is_castle := false }
        if targetPieceType = PieceType.None then
          let acc2 := psuedolegalizeMove acc resultingMove
            (isSquareAttackable b piece possibleTarget && decide (offsetIndex = 1))
          pawnStepLoop b piece offset offsetIndex r (step + 1) acc2
        else
          psuedolegalizeMove acc resultingMove
            (isSquareAttackable b piece possibleTarget &&
             (decide (offsetIndex ≠ 1) && decide (step = 1)))
    else pawnStepLoop b piece offset offsetIndex r (step + 1) acc

/-- compute_pawn from src/move.rs. The outer Option models the panics of
the source: the explicit panic for teams other than White and Black, and
the en_passant_turn.unwrap() that is reached when an en-passant square is
adjacent and attackable while en_passant_turn is None. -/
def computePawn (b : BoardState) (piece : Piece) : Option (Bitboard × List Move) :=
  match (match piece.team with
         | Team.Black => some (-8 : Int)
         | Team.White => some (8 : Int)
         | _ => none) with
  | none => none
  | some forwardDirection =>
    let pawnViewRange := forwardDirection.sign
    let farEdgeDist :=
      match piece.team with
      | Team.Black => (computeEdgesAt piece.position).getD 1 0
      | _ => (computeEdgesAt piece.position).getD 0 0
    if farEdgeDist = 0 then some (Bitboard.mk 0, [])
    else
      let stepLength := if farEdgeDist = 6 then 2 else 1
      let ofStart := min (forwardDirection - pawnViewRange) (forwardDirection + pawnViewRange)
      let ofEnd := max (forwardDirection - pawnViewRange) (forwardDirection + pawnViewRange)
      let mainAcc :=
        ((intRangeIncl ofStart ofEnd).foldl
          (fun (st : (Bitboard × List Move) × Nat) offset =>
            (pawnStepLoop b piece offset st.2 stepLength 1 st.1, st.2 + 1))
          ((Bitboard.mk 0, []), 0)).1
      match b.en_passant_square with
      | some enPass =>
        if absDiff enPass piece.position = 1 then
          let targetPieceType := b.piece_list.getD enPass PieceType.None
          let targetPiece := getPieceAtPos b enPass
          let resultingMove : Move :=
            { start := piece.position, target := enPass, captures := targetPiece,
              is_pawn_double := false, is_castle := false }
          if isSquareAttackable b piece enPass then
            match b.en_passant_turn with
            | none => none
            | some epTurn =>
              some (psuedolegalizeMove mainAcc resultingMove
                (decide (epTurn = b.turn_clock) && decide (targetPieceType = PieceType.Pawn)))
          else some (psuedolegalizeMove mainAcc resultingMove false)
        else some mainAcc
      | none => some mainAcc

/-- Per-square generation pass of BoardState::get_psuedolegal_moves (the
loop before castling injection): empty or enemy-free squares contribute the
default push (zero bitboard plus one default Move). -/
def perSquareMoves (b : BoardState) : List (Bitboard × List Move) :=
  b.piece_list.enum.map
    (fun pair =>
      let index := pair.1
      let pieceType := pair.2
      let defaultPush : Bitboard × List Move := (Bitboard.mk 0, [Move.default])
      let team := getSquareTeam b index
      if team ≠ Team.None then
        let pieceObj : Piece := { piece_type := pieceType, team := team, position := index }
        match pieceType with
        | PieceType.Bishop => computeSlider b pieceObj
        | PieceType.Rook => computeSlider b pieceObj
        | PieceType.Queen => computeSlider b pieceObj
        | PieceType.King => getPrecomputedKing b pieceObj
        | PieceType.Knight => getPrecomputedKnight b pieceObj
        | PieceType.Pawn => getPrecomputedPawn b pieceObj
        | PieceType.None => defaultPush
      else defaultPush)

/-- BoardState::is_team_checked from src/board.rs: the union of BOTH teams'
cached capture bitboards intersected with the team's king bitboard. -/
def isTeamChecked (b : BoardState) (team : Team) : Bool :=
  let enemyCaptureBitboard :=
    (b.capture_bitboard.getD 0 (Bitboard.mk 0)).bor
      (b.capture_bitboard.getD 1 (Bitboard.mk 0))
  let inCheck := enemyCaptureBitboard.band
    (bpGet b.board_pieces team.toIdx PieceType.King.toIdx)
  decide (inCheck.state > 0)

/-- One iteration of the castling loop of get_psuedolegal_moves
(castlingMove 0 = White kingside bit, 1 = White queenside bit, 2 = Black
kingside bit, 3 = Black queenside bit). For castlingMove 0 and 2 the
kingside path is tried first and the queenside path is the else branch;
for castlingMove 1 and 3 only the queenside path can fire. -/
def castlingStep (b : BoardState) (whiteCheck blackCheck : Bool)
    (ml : List (Bitboard × List Move)) (castlingMove : Nat) :
    List (Bitboard × List Move) :=
  if b.castling_rights.testBit castlingMove &&
     !(if castlingMove < 2 then whiteCheck else blackCheck) then
    let kingSquare := if castlingMove < 2 then 4 else 60
    if b.piece_list.getD kingSquare PieceType.None ≠ PieceType.King then ml
    else
      let entry := ml.getD kingSquare (Bitboard.mk 0, [])
      if (castlingMove = 0 ∨ castlingMove = 2) ∧
         b.piece_list.getD (kingSquare + 2) PieceType.None = PieceType.None ∧
         b.piece_list.getD (kingSquare + 1) PieceType.None = PieceType.None then
        ml.set kingSquare (entry.1.setBitRaw (kingSquare + 2) true,
          entry.2 ++ [{ start := kingSquare, target := kingSquare + 2, captures := none,
                        is_pawn_double := false, is_castle := true }])
      else if b.piece_list.getD (kingSquare - 2) PieceType.None = PieceType.None ∧
              b.piece_list.getD (kingSquare - 1) PieceType.None = PieceType.None ∧
              b.piece_list.getD (kingSquare - 3) PieceType.None = PieceType.None then
        ml.set kingSquare (entry.1.setBitRaw (kingSquare - 2) true,
          entry.2 ++ [{ start := kingSquare, target := kingSquare - 2, captures := none,
                        is_pawn_double := false, is_castle := true }])
      else ml
  else ml

/-- Castling injection loop of get_psuedolegal_moves (bits 0..3, gated on
the side not being in check). -/
def addCastling (b : BoardState) (ml : List (Bitboard × List Move)) :
    List (Bitboard × List Move) :=
  let whiteCheck := isTeamChecked b Team.White
  let blackCheck := isTeamChecked b Team.Black
  [0, 1, 2, 3].foldl (castlingStep b whiteCheck blackCheck) ml

/-- BoardState::get_psuedolegal_moves from src/board.rs: per-square
generation followed by castling injection. -/
def getPsuedolegalMoves (b : BoardState) : List (Bitboard × List Move) :=
  addCastling b (perSquareMoves b)

/-- BoardState::update_capture_bitboards from src/board.rs. The loop body
re-runs get_psuedolegal_moves for each team id on the board as mutated so
far, and masks pawn push squares out of pawn contributions. -/
def updateCaptureBitboards (b : BoardState) : BoardState :=
  [0, 1].foldl
    (fun bCur teamId =>
      let legals := getPsuedolegalMoves bCur
      let captureBitboard :=
        (legals.enum.take 64).foldl
          (fun acc pair =>
            let square := pair.1
            let bitboard := pair.2.1
            if (getSquareTeam bCur square).toIdx = teamId then
              let pieceType := bCur.piece_list.getD square PieceType.None
              if pieceType = PieceType.Pawn then
                acc.bor (bitboard.band (pawnPushComputeAt teamId square).bnot)
              else acc.bor bitboard
            else acc)
          (Bitboard.mk 0)
      { bCur with capture_bitboard := bCur.capture_bitboard.set teamId captureBitboard })
    b

/-- BoardState::move_piece from src/board.rs, including its castling-rights
chain: the four rook home squares clear one bit each, square 4 clears bits
2 and 3, square 60 clears bits 0 and 1, and the whole chain is an if /
else-if cascade (at most one branch fires). -/
def movePiece (b : BoardState) (squareTeam : Team) (movingPieceType : PieceType)
    (mv : Move) : BoardState :=
  let bp := b.board_pieces
  let bp :=
    if squareTeam = Team.White then
      let bp := bpSet bp 0 movingPieceType.toIdx
        ((bpGet bp 0 movingPieceType.toIdx).setBitRaw mv.start false)
      let bp := bpSet bp 0 movingPieceType.toIdx
        ((bpGet bp 0 movingPieceType.toIdx).setBitRaw mv.target true)
      listModify bp 1 (fun row => row.map (fun bb => bb.setBitRaw mv.target false))
    else
      let bp := bpSet bp 1 movingPieceType.toIdx
        ((bpGet bp 1 movingPieceType.toIdx).setBitRaw mv.start false)
      let bp := bpSet bp 1 movingPieceType.toIdx
        ((bpGet bp 1 movingPieceType.toIdx).setBitRaw mv.target true)
      listModify bp 0 (fun row => row.map (fun bb => bb.setBitRaw mv.target false))
  let cr := b.castling_rights
  let cr :=
    if mv.start = 56 ∨ mv.target = 56 then u8SetBit cr 3 false
    else if mv.start = 0 ∨ mv.target = 0 then u8SetBit cr 1 false
    else if mv.start = 7 ∨ mv.target = 7 then u8SetBit cr 0 false
    else if mv.start = 63 ∨ mv.target = 63 then u8SetBit cr 2 false
    else if mv.start = 4 ∨ mv.target = 4 then u8SetBit (u8SetBit cr 2 false) 3 false
    else if mv.start = 60 ∨ mv.target = 60 then u8SetBit (u8SetBit cr 0 false) 1 false
    else cr
  { b with
    board_pieces := bp
    castling_rights := cr
    piece_list := (b.piece_list.set mv.start PieceType.None).set mv.target movingPieceType }

/-- BoardState::make_move from src/board.rs, as a pure transition: the
first component is the Rust Result, the second the board after the call
(unchanged on every error, since the source returns before mutating). -/
def makeMove (b : BoardState) (mv : Move) : Except MoveError Unit × BoardState :=
  let movingPieceType := b.piece_list.getD mv.start PieceType.None
  let squareTeam := getSquareTeam b mv.start
  let targetTeam := getSquareTeam b mv.target
  if mv.start = mv.target then (Except.error MoveError.NotAMove, b)
  else if squareTeam ≠ Team.None then
    if targetTeam = squareTeam then (Except.error MoveError.AttackedAlly, b)
    else
      let b1 := movePiece b squareTeam movingPieceType mv
      let b2 :=
        if mv.is_castle ∧ mv.target = 6 then
          movePiece b1 squareTeam PieceType.Rook
            { start := 7, target := 5, captures := none,
              is_pawn_double := false, is_castle := true }
        else if mv.is_castle ∧ mv.target = 2 then
          movePiece b1 squareTeam PieceType.Rook
            { start := 0, target := 3, captures := none,
              is_pawn_double := false, is_castle := true }
        else if mv.is_castle ∧ mv.target = 58 then
          movePiece b1 squareTeam PieceType.Rook
            { start := 56, target := 59, captures := none,
              is_pawn_double := false, is_castle := true }
        else if mv.is_castle ∧ mv.target = 62 then
          movePiece b1 squareTeam PieceType.Rook
            { start := 63, target := 61, captures := none,
              is_pawn_double := false, is_castle := true }
        else b1
      let b3 :=
        { b2 with
          en_passant_square :=
            if mv.is_pawn_double then some mv.target else b2.en_passant_square
          en_passant_turn := some b2.turn_clock }
      let b4 := updateCaptureBitboards b3
      let b5 :=
        if b4.active_team = Team.Black then
          { b4 with
            active_team := Team.White
            turn_clock := b4.turn_clock + 1
            en_passant_square := none }
        else { b4 with active_team := Team.Black }
      (Except.ok (), { b5 with ply_clock := b5.ply_clock + 1 })
  else (Except.error MoveError.NoUnit, b)

/-- BoardState::unmake_move from src/board.rs, as a pure transition (same
shape as makeMove). Castling restores the rights bit indexed by the moving
team's discriminant (kingside) or that plus one (queenside); the clocks
are stepped back and the capture bitboards recomputed; en_passant_turn is
never restored. -/
def unmakeMove (b : BoardState) (mv : Move) : Except MoveError Unit × BoardState :=
  let movingPieceType := b.piece_list.getD mv.target PieceType.None
  let squareTeam := getSquareTeam b mv.target
  let targetTeam := getSquareTeam b mv.start
  if mv.start = mv.target then (Except.error MoveError.NotAMove, b)
  else if squareTeam ≠ Team.None then
    if targetTeam = squareTeam then (Except.error MoveError.AttackedAlly, b)
    else
      let b1 := movePiece b squareTeam movingPieceType
        { start := mv.target, target := mv.start, captures := mv.captures,
          is_pawn_double := false, is_castle := false }
      let b2 :=
        match mv.captures with
        | some fallenPiece =>
          { b1 with
            piece_list := b1.piece_list.set mv.target fallenPiece.piece_type
            board_pieces := bpSet b1.board_pieces fallenPiece.team.toIdx
              fallenPiece.piece_type.toIdx
              ((bpGet b1.board_pieces fallenPiece.team.toIdx
                fallenPiece.piece_type.toIdx).setBitRaw mv.target true) }
        | none => b1
      let b3 :=
        if mv.is_castle then
          let isQueenside := mv.target < mv.start
          let isKingside := mv.start < mv.target
          let rightsIndex := squareTeam.toIdx
          let b2a :=
            if isKingside then
              { b2 with castling_rights := u8SetBit b2.castling_rights rightsIndex true }
            else if isQueenside then
              { b2 with castling_rights := u8SetBit b2.castling_rights (rightsIndex + 1) true }
            else b2
          if mv.target = 6 then
            movePiece b2a squareTeam PieceType.Rook
              { start := 5, target := 7, captures := none,
                is_pawn_double := false, is_castle := true }
          else if mv.target = 2 then
            movePiece b2a squareTeam PieceType.Rook
              { start := 3, target := 0, captures := none,
                is_pawn_double := false, is_castle := true }
          else if mv.target = 58 then
            movePiece b2a squareTeam PieceType.Rook
              { start := 59, target := 56, captures := none,
                is_pawn_double := false, is_castle := true }
          else if mv.target = 62 then
            movePiece b2a squareTeam PieceType.Rook
              { start := 61, target := 63, captures := none,
                is_pawn_double := false, is_castle := true }
          else b2a
        else b2
      let b4 :=
        if b3.active_team = Team.Black then
          { b3 with active_team := Team.White }
        else
          { b3 with
            turn_clock := b3.turn_clock - 1
            en_passant_square := none
            active_team := Team.Black }
      let b5 := { b4 with ply_clock := b4.ply_clock - 1 }
      (Except.ok (), updateCaptureBitboards b5)
  else (Except.error MoveError.NoUnit, b)

/-- BoardState::get_legal_moves from src/board.rs: simulate every
pseudolegal move on a copy; a move whose mover ends up checked is dropped
and its highlight bit cleared, failed make_move calls are skipped. -/
def getLegalMoves (b : BoardState) : List (Bitboard × List Move) :=
  (getPsuedolegalMoves b).map
    (fun entry =>
      entry.2.foldl
        (fun acc availableMove =>
          let teamMoving := getSquareTeam b availableMove.start
          let result := makeMove b availableMove
          match result.1 with
          | Except.ok _ =>
            if isTeamChecked result.2 teamMoving then
              (acc.1.setBitRaw availableMove.target false, acc.2)
            else (acc.1, acc.2 ++ [availableMove])
          | Except.error _ => acc)
        (entry.1, []))

/-- BoardState::prune_moves_for_team from src/board.rs. -/
def pruneMovesForTeam (b : BoardState) (moveList : List (Bitboard × List Move))
    (team : Team) : List Move :=
  moveList.foldl
    (fun acc entry =>
      acc ++ entry.2.filter (fun availableMove => getSquareTeam b availableMove.start = team))
    []

/-- BoardState::prune_moves_for_team_mut from src/board.rs: same pruning,
and the sticky checkmate flag is set when the pruned list is empty while
the active team is checked. -/
def pruneMovesForTeamMut (b : BoardState) (moveList : List (Bitboard × List Move))
    (team : Team) : List Move × BoardState :=
  let prunedList := pruneMovesForTeam b moveList team
  if prunedList.isEmpty ∧ isTeamChecked b b.active_team then
    (prunedList, { b with active_team_checkmate := true })
  else (prunedList, b)

/-- FENErr enum from src/board.rs. -/
inductive FENErr where
  | BadState
  | BadTeam
  | MalformedNumber
deriving DecidableEq, Repr

/-- LIST_OF_PIECES constant from src/board.rs. -/
def listOfPieces : List Char :=
  ['k', 'q', 'r', 'b', 'n', 'p', 'K', 'Q', 'R', 'B', 'N', 'P']

/-- Set the bit of one piece on its team's board and on the Both board, as
the placement arm of from_fen does. -/
def setPieceBit (b : BoardState) (team : Team) (pt : PieceType) (square : Nat) : BoardState :=
  let bp := bpSet b.board_pieces team.toIdx pt.toIdx
    ((bpGet b.board_pieces team.toIdx pt.toIdx).setBitRaw square true)
  let bp := bpSet bp 2 pt.toIdx ((bpGet bp 2 pt.toIdx).setBitRaw square true)
  { b with board_pieces := bp }

/-- One character of the FEN placement field (part 1 of from_fen). State is
(rank, file, board); the outer Option models the panics of the source (a
square index at or above 64, or a digit advancing the file past h). -/
def fenPlaceChar (st : Int × Nat × BoardState) (c : Char) :
    Option (Except FENErr (Int × Nat × BoardState)) :=
  let rank := st.1
  let file := st.2.1
  let b := st.2.2
  let team := if c.isUpper then Team.White else Team.Black
  let square := (usizeOfInt rank * 8 + file) % U64MOD
  let afterMatch : Option (Except FENErr (Int × Nat × BoardState)) :=
    if c.toLower = 'k' then
      if square < 64 then some (Except.ok (rank, file, setPieceBit b team PieceType.King square))
      else none
    else if c.toLower = 'q' then
      if square < 64 then some (Except.ok (rank, file, setPieceBit b team PieceType.Queen square))
      else none
    else if c.toLower = 'p' then
      if square < 64 then some (Except.ok (rank, file, setPieceBit b team PieceType.Pawn square))
      else none
    else if c.toLower = 'b' then
      if square < 64 then some (Except.ok (rank, file, setPieceBit b team PieceType.Bishop square))
      else none
    else if c.toLower = 'r' then
      if square < 64 then some (Except.ok (rank, file, setPieceBit b team PieceType.Rook square))
      else none
    else if c.toLower = 'n' then
      if square < 64 then some (Except.ok (rank, file, setPieceBit b team PieceType.Knight square))
      else none
    else if '1' ≤ c ∧ c ≤ '8' then
      let emptySpaces := c.toNat - 48
      if c ≠ '8' ∧ file + emptySpaces ≠ 8 then
        if file + emptySpaces ≤ 7 then some (Except.ok (rank, file + emptySpaces, b))
        else none
      else some (Except.ok (rank, 7, b))
    else if c = '/' then
      if file ≠ 7 then some (Except.error FENErr.BadState)
      else some (Except.ok (rank - 1, 0, b))
    else some (Except.error FENErr.BadState)
  match afterMatch with
  | some (Except.ok (rank2, file2, b2)) =>
    if c ∈ listOfPieces ∧ file2 + 1 < 8 then some (Except.ok (rank2, file2 + 1, b2))
    else some (Except.ok (rank2, file2, b2))
  | other => other

/-- Fold of fenPlaceChar over the placement field. -/
def foldFenChars : List Char → Int × Nat × BoardState →
    Option (Except FENErr (Int × Nat × BoardState))
  | [], st => some (Except.ok st)
  | c :: rest, st =>
    match fenPlaceChar st c with
    | none => none
    | some (Except.error e) => some (Except.error e)
    | some (Except.ok st2) => foldFenChars rest st2

/-- str::parse::<i64> on the clock fields: optional sign then decimal
digits. -/
def parseI64 (s : String) : Option Int :=
  let digitsVal : List Char → Option Nat := fun ds =>
    if ds ≠ [] ∧ ds.all Char.isDigit then
      some (ds.foldl (fun acc c => acc * 10 + (c.toNat - 48)) 0)
    else none
  match s.data with
  | '+' :: ds => (digitsVal ds).map (fun n => (n : Int))
  | '-' :: ds => (digitsVal ds).map (fun n => -(n : Int))
  | ds => (digitsVal ds).map (fun n => (n : Int))

/-- One space-separated FEN part, as its character list (idx counts from 1
as in the source; parts past the sixth hit the unreachable! panic,
modelled as none). -/
def fenPartStep (b : BoardState) (idx : Nat) (part : List Char) :
    Option (Except FENErr BoardState) :=
  match idx with
  | 1 =>
    match foldFenChars part (7, 0, b) with
    | none => none
    | some (Except.error e) => some (Except.error e)
    | some (Except.ok st) => some (Except.ok st.2.2)
  | 2 =>
    if 'b' ∈ part then some (Except.ok { b with active_team := Team.Black })
    else if 'w' ∈ part then some (Except.ok { b with active_team := Team.White })
    else some (Except.error FENErr.BadTeam)
  | 3 =>
    let rights := 0
    let rights := if 'K' ∈ part then u8SetBit rights 0 true else rights
    let rights := if 'Q' ∈ part then u8SetBit rights 1 true else rights
    let rights := if 'k' ∈ part then u8SetBit rights 2 true else rights
    let rights := if 'q' ∈ part then u8SetBit rights 3 true else rights
    some (Except.ok { b with castling_rights := rights })
  | 4 =>
    if part.length < 2 then some (Except.ok { b with en_passant_square := none })
    else
      match alNotationToBitIdx (String.mk part) with
      | none => none
      | some o => some (Except.ok { b with en_passant_square := o })
  | 5 =>
    match parseI64 (String.mk part) with
    | some n => some (Except.ok { b with fifty_move_clock := n })
    | none => some (Except.error FENErr.MalformedNumber)
  | 6 =>
    match parseI64 (String.mk part) with
    | some n => some (Except.ok { b with turn_clock := n })
    | none => some (Except.error FENErr.MalformedNumber)
  | _ => none

/-- str::split(" "): split a character list at every single space (empty
pieces are kept, as in Rust). -/
def splitOnSpaces (l : List Char) : List (List Char) :=
  match l with
  | [] => [[]]
  | c :: rest =>
    let tail := splitOnSpaces rest
    if c = ' ' then [] :: tail
    else
      match tail with
      | [] => [[c]]
      | p :: ps => (c :: p) :: ps

/-- Loop over the FEN parts with the 1-based part index. -/
def fenPartsLoop : List (List Char) → Nat → BoardState → Option (Except FENErr BoardState)
  | [], _, b => some (Except.ok b)
  | p :: rest, idx, b =>
    match fenPartStep b (idx + 1) p with
    | none => none
    | some (Except.error e) => some (Except.error e)
    | some (Except.ok b2) => fenPartsLoop rest (idx + 1) b2

/-- BoardState::init_piece_list from src/board.rs: for each piece type,
write it into piece_list at every set bit of the White board and then of
the Black board. -/
def initPieceList (b : BoardState) : BoardState :=
  { b with
    piece_list :=
      (List.range 7).foldl
        (fun pl ptIdx =>
          let pt := pieceTypeArray.getD ptIdx PieceType.None
          let wb := bpGet b.board_pieces 0 ptIdx
          let bb := bpGet b.board_pieces 1 ptIdx
          let pl :=
            (List.range 64).foldl
              (fun pl i => if wb.state.testBit i then pl.set i pt else pl) pl
          (List.range 64).foldl
            (fun pl i => if bb.state.testBit i then pl.set i pt else pl) pl)
        b.piece_list }

/-- BoardState::from_fen from src/board.rs. The outer Option models the
panics of the source (placement overruns, more than six parts). -/
def fromFen (fen : String) : Option (Except FENErr BoardState) :=
  match fenPartsLoop (splitOnSpaces fen.data) 0 defaultState with
  | none => none
  | some (Except.error e) => some (Except.error e)
  | some (Except.ok b) => some (Except.ok (updateCaptureBitboards (initPieceList b)))

/-- BoardState::as_fen from src/board.rs. -/
def asFen (b : BoardState) : String :=
  let castlingRights := if b.castling_rights > 0 then "" else "-"
  let castlingRights :=
    [0, 1, 2, 3].foldl
      (fun s i =>
        if b.castling_rights.testBit i then
          let c := if i % 2 = 0 then 'k' else 'q'
          let c := if i < 2 then c.toUpper else c
          s.push c
        else s)
      castlingRights
  let enPassantSquare :=
    match b.en_passant_square with
    | some eps =>
      match bitIdxToAlNotation eps with
      | some epsStr => epsStr
      | none => "-"
    | none => "-"
  let halfMoveClock := "0"
  let fullMoveClock := toString b.turn_clock
  let activeColor := if b.active_team = Team.White then "w" else "b"
  let placement :=
    ((List.range 8).foldl
      (fun (st : String × Nat × Nat) rankCounter =>
        let boardRank := 7 - rankCounter
        let afterFiles :=
          (List.range 8).foldl
            (fun (st2 : String × Nat × Nat) fileIdx =>
              let square := boardRank * 8 + fileIdx
              let pieceType := b.piece_list.getD square PieceType.None
              let team := getSquareTeam b square
              let pieceChar :=
                match pieceType with
                | PieceType.None => '0'
                | PieceType.Pawn => 'p'
                | PieceType.Rook => 'r'
                | PieceType.Bishop => 'b'
                | PieceType.Knight => 'n'
                | PieceType.Queen => 'q'
                | PieceType.King => 'k'
              let pieceChar := if team = Team.White then pieceChar.toUpper else pieceChar
              if pieceType = PieceType.None ∨ team = Team.None then
                (st2.1, st2.2.1 + 1, st2.2.2)
              else
                let s := if st2.2.1 ≠ 0 then st2.1 ++ toString st2.2.1 else st2.1
                (s.push pieceChar, 0, st2.2.2)
            )
            st
        let s := if afterFiles.2.1 ≠ 0 then afterFiles.1 ++ toString afterFiles.2.1
          else afterFiles.1
        let newRankCount := afterFiles.2.2 + 1
        let s := if newRankCount ≠ 8 then s.push '/' else s
        (s, 0, newRankCount))
      ("", 0, 0)).1
  placement ++ " " ++ activeColor ++ " " ++ castlingRights ++ " " ++ enPassantSquare ++
    " " ++ halfMoveClock ++ " " ++ fullMoveClock

/-- i32::MIN, the initial best_white alpha bound. -/
def INT32MIN : Int := -2147483648

/-- i32::MAX, the initial best_black beta bound. -/
def INT32MAX : Int := 2147483647

/-- Stable insertion into a descending-by-eval list (mapped_legals.0
.sort_by(|a, b| b.eval.cmp(&a.eval)) of the source is a stable descending
sort). -/
def insertDesc (x : Int × Move) : List (Int × Move) → List (Int × Move)
  | [] => [x]
  | y :: t => if y.1 < x.1 then x :: y :: t else y :: insertDesc x t

/-- Stable descending sort by eval. -/
def sortByEvalDesc (l : List (Int × Move)) : List (Int × Move) :=
  l.foldr insertDesc []

/-- pick_random_move from src/opponents/mod.rs (the Randy strategy);
slice::choose returns None exactly on an empty slice and otherwise some
element, modelled by an arbitrary choice index. -/
def pickRandomMove (b : BoardState) (choiceIdx : Nat) : Option Move :=
  let legals := pruneMovesForTeam b (getLegalMoves b) b.active_team
  if legals.isEmpty then none
  else legals.get? (choiceIdx % legals.length)

/-- ChessOpponent::Matt(search_budget) arm of get_move from
src/opponents/mod.rs, over an abstract evaluator em standing for
evaluate_move (which Matt runs on a clone of the board, so the board is
not threaded). The debug log between sorting and the emptiness test
indexes entry 0 of the sorted list; with the tracing subscriber of the
binary (warn level) its arguments are never evaluated, so it is a no-op
here. -/
def mattGetMove (em : BoardState → Move → Int → Int → Int → Int × BoardState)
    (b : BoardState) (searchBudget : Int) : Option Move :=
  let legals := pruneMovesForTeam b (getLegalMoves b) b.active_team
  if legals.length = 1 then some (legals.getD 0 Move.default)
  else
    let mappedLegals := legals.map
      (fun legalMove =>
        ((em b legalMove (searchBudget - 1) INT32MIN INT32MAX).1 *
           (if b.active_team = Team.White then 1 else -1),
         legalMove))
    let sorted := sortByEvalDesc mappedLegals
    match sorted with
    | best :: _ => some best.2
    | [] => none

/-- Inner 'legal_check loop of the Ada arm: scan the root legals, checking
the clock (oracle, one consultation per visited move) before each
evaluation; em is the abstract evaluate_move threading the board, jit the
random jitter added to each pushed eval. Returns the consultation counter,
the threaded board, the evals gathered before any break, and will_break. -/
def adaScanLegals (em : BoardState → Move → Int → Int → Int → Int × BoardState)
    (oracle : Nat → Bool) (jit : Nat → Int) (searchBudget : Int) :
    List Move → Nat → BoardState → List (Int × Move) →
    Nat × BoardState × List (Int × Move) × Bool
  | [], cnt, b, evals => (cnt, b, evals, false)
  | legalMove :: rest, cnt, b, evals =>
    if oracle cnt then (cnt + 1, b, evals, true)
    else
      let r := em b legalMove searchBudget INT32MIN INT32MAX
      let eval := r.1 * (if r.2.active_team = Team.White then 1 else -1)
      adaScanLegals em oracle jit searchBudget rest (cnt + 1) r.2
        (evals ++ [(eval + jit cnt, legalMove)])

/-- Outer iterative-deepening loop of the Ada arm, fuel-indexed: none
means the loop had not exited after that many iterations. An iteration
exits the loop only when the clock check fired during the scan of a
nonempty legals list; otherwise mapped_legals is replaced by the fresh
evals and search_budget grows. -/
def adaLoop (em : BoardState → Move → Int → Int → Int → Int × BoardState)
    (oracle : Nat → Bool) (jit : Nat → Int) (legals : List Move) :
    Nat → Int → Nat → BoardState → List (Int × Move) → Option (List (Int × Move))
  | 0, _, _, _, _ => none
  | fuel + 1, searchBudget, cnt, b, mappedLegals =>
    let scan := adaScanLegals em oracle jit searchBudget legals cnt b []
    if scan.2.2.2 then some mappedLegals
    else adaLoop em oracle jit legals fuel (searchBudget + 1) scan.1 scan.2.1 scan.2.2.1

/-- ChessOpponent::Ada(time_limit) arm of get_move from
src/opponents/mod.rs, fuel-indexed (outer none = the source loop is still
running after that many iterations). current_best is None going into the
selection epilogue, so the move returned is the head of the sorted
mapped_legals when that list is nonempty, and None otherwise. -/
def adaGetMove (em : BoardState → Move → Int → Int → Int → Int × BoardState)
    (oracle : Nat → Bool) (jit : Nat → Int) (b : BoardState) (fuel : Nat) :
    Option (Option Move) :=
  let pr := pruneMovesForTeamMut b (getLegalMoves b) b.active_team
  let legals := pr.1
  let board := pr.2
  if board.active_team_checkmate then some none
  else if legals.length = 1 then some (some (legals.getD 0 Move.default))
  else
    match adaLoop em oracle jit legals fuel 0 0 board [] with
    | none => none
    | some mappedLegals =>
      match sortByEvalDesc mappedLegals with
      | best :: _ => some (some best.2)
      | [] => some none

/-- The standard chess starting FEN (START_POS_CHESS in src/main.rs). -/
def startFen : String := "rnbqkbnr/pppppppp/8/8/8/8/PPPPPPPP/RNBQKBNR w KQkq - 0 1"

/-- The Position parsed from the starting FEN. -/
def startBoard : BoardState :=
  match fromFen startFen with
  | some (Except.ok b) => b
  | _ => defaultState

/-- Small position used for the make/unmake and en-passant evaluations:
White pawn a2, White king e1, Black king e7, White to move. -/
def c1Board : BoardState :=
  match fromFen "8/4k3/8/8/8/8/P7/4K3 w - - 0 1" with
  | some (Except.ok b) => b
  | _ => defaultState

/-- The double pawn push a2 to a4 (squares 8 to 24). -/
def c1Move : Move :=
  { start := 8, target := 24, captures := none,
    is_pawn_double := true, is_castle := false }

/-- Kings-only position with all four castling-rights bits set, used to
evaluate the castling-rights update of move_piece. -/
def c2Board : BoardState :=
  match fromFen "4k3/8/8/8/8/8/8/4K3 w KQkq - 0 1" with
  | some (Except.ok b) => b
  | _ => defaultState

/-- The White king stepping from its home square e1 (4) to e2 (12). -/
def c2Move : Move :=
  { start := 4, target := 12, captures := none,
    is_pawn_double := false, is_castle := false }

/-- Position with only the White KINGSIDE castling-rights bit set (FEN
right "K"), the White king on its home square, the kingside path blocked
by the f1 bishop, and the queenside path empty. -/
def cex3Board : BoardState :=
  match fromFen "4k3/8/8/8/8/8/8/4KB2 w K - 0 1" with
  | some (Except.ok b) => b
  | _ => defaultState

/-- The four castling moves the injection loop can synthesize. -/
def castleMoveWK : Move :=
  { start := 4, target := 6, captures := none, is_pawn_double := false, is_castle := true }

/-- White queenside castling move. -/
def castleMoveWQ : Move :=
  { start := 4, target := 2, captures := none, is_pawn_double := false, is_castle := true }

/-- Black kingside castling move. -/
def castleMoveBK : Move :=
  { start := 60, target := 62, captures := none, is_pawn_double := false, is_castle := true }

/-- Black queenside castling move. -/
def castleMoveBQ : Move :=
  { start := 60, target := 58, captures := none, is_pawn_double := false, is_castle := true }

/-- Stalemate position under this engine: Black (to move) has zero legal
moves (king a8 boxed by its own a7 pawn, which is blocked by the White
pawns on a6 and a5) and is not in check. -/
def staleBoard : BoardState :=
  match fromFen "k7/p7/P7/P7/8/8/8/8 b - - 0 1" with
  | some (Except.ok b) => b
  | _ => defaultState

/-- Checkmate position under this engine: White (to move) has zero legal
moves and is in check from the a7 queen (the position after Qc5-a7 in the
repository's own checkmate test). -/
def mateBoard : BoardState :=
  match fromFen "K1n5/q7/8/8/8/3k4/8/8 w - - 0 51" with
  | some (Except.ok b) => b
  | _ => defaultState

/-- Trivial evaluator standing in for evaluate_move (returns score 0 and
leaves the board unchanged). -/
def em0 : BoardState → Move → Int → Int → Int → Int × BoardState :=
  fun b _ _ _ _ => (0, b)

/-- A clock oracle that reports the time limit as always already exceeded. -/
def oracleTrue : Nat → Bool := fun _ => true

/-- Zero jitter. -/
def jit0 : Nat → Int := fun _ => 0

/-!
Helper lemmas: list indexing, projections of the state-mutating steps,
and facts about the per-square move generators.
-/

set_option maxRecDepth 100000

theorem getDq_set_ne {α : Type} (l : List α) (i j : Nat) (a d : α) (h : i ≠ j) :
    (l.set i a)[j]?.getD d = l[j]?.getD d := by
  rw [List.getElem?_set_ne h]

theorem getDq_set_self {α : Type} (l : List α) (i : Nat) (a d : α) (h : i < l.length) :
    (l.set i a)[i]?.getD d = a := by
  rw [List.getElem?_set_eq_of_lt a h]; rfl

theorem foldl_preserve {β : Type} {γ : Type} (P : β → Prop) (f : β → γ → β)
    (hf : ∀ acc i, P acc → P (f acc i)) :
    ∀ (l : List γ) (acc : β), P acc → P (l.foldl f acc) := by
  intro l
  induction l with
  | nil => intro acc h; simpa using h
  | cons x t ih => intro acc h; exact ih (f acc x) (hf acc x h)

theorem ucb_en_passant_square (b : BoardState) :
    (updateCaptureBitboards b).en_passant_square = b.en_passant_square := by
  simp [updateCaptureBitboards]

theorem ucb_en_passant_turn (b : BoardState) :
    (updateCaptureBitboards b).en_passant_turn = b.en_passant_turn := by
  simp [updateCaptureBitboards]

theorem ucb_turn_clock (b : BoardState) :
    (updateCaptureBitboards b).turn_clock = b.turn_clock := by
  simp [updateCaptureBitboards]

theorem ucb_ply_clock (b : BoardState) :
    (updateCaptureBitboards b).ply_clock = b.ply_clock := by
  simp [updateCaptureBitboards]

theorem ucb_active_team (b : BoardState) :
    (updateCaptureBitboards b).active_team = b.active_team := by
  simp [updateCaptureBitboards]

theorem ucb_piece_list (b : BoardState) :
    (updateCaptureBitboards b).piece_list = b.piece_list := by
  simp [updateCaptureBitboards]

theorem mp_en_passant_square (b : BoardState) (t : Team) (pt : PieceType) (mv : Move) :
    (movePiece b t pt mv).en_passant_square = b.en_passant_square := by
  simp [movePiece]

theorem mp_en_passant_turn (b : BoardState) (t : Team) (pt : PieceType) (mv : Move) :
    (movePiece b t pt mv).en_passant_turn = b.en_passant_turn := by
  simp [movePiece]

theorem mp_turn_clock (b : BoardState) (t : Team) (pt : PieceType) (mv : Move) :
    (movePiece b t pt mv).turn_clock = b.turn_clock := by
  simp [movePiece]

theorem mp_ply_clock (b : BoardState) (t : Team) (pt : PieceType) (mv : Move) :
    (movePiece b t pt mv).ply_clock = b.ply_clock := by
  simp [movePiece]

theorem mp_active_team (b : BoardState) (t : Team) (pt : PieceType) (mv : Move) :
    (movePiece b t pt mv).active_team = b.active_team := by
  simp [movePiece]

theorem mp_piece_list (b : BoardState) (t : Team) (pt : PieceType) (mv : Move) :
    (movePiece b t pt mv).piece_list =
      (b.piece_list.set mv.start PieceType.None).set mv.target pt := by
  simp [movePiece]

theorem psuedolegalizeMove_mem (acc : Bitboard × List Move) (cm : Move) (c : Bool)
    (mv : Move) (h : mv ∈ (psuedolegalizeMove acc cm c).2) : mv ∈ acc.2 ∨ mv = cm := by
  cases c
  · simp [psuedolegalizeMove] at h
    exact Or.inl h
  · simp [psuedolegalizeMove] at h
    exact h

theorem raycastLoop_castle_false (b : BoardState) (p : Piece) (dir : Int) :
    ∀ (r step : Nat) (acc : Bitboard × List Move),
      (∀ mv ∈ acc.2, mv.is_castle = false) →
      ∀ mv ∈ (raycastLoop b p dir r step acc).2, mv.is_castle = false := by
  intro r
  induction r with
  | zero => intro step acc hacc mv hmv; exact hacc mv (by simpa [raycastLoop] using hmv)
  | succ n ih =>
    intro step acc hacc mv hmv
    simp only [raycastLoop] at hmv
    have hstep : ∀ mv2 ∈ (psuedolegalizeMove acc
        { start := p.position, target := usizeOfInt ((p.position : Int) + (step : Int) * dir),
          captures := getPieceAtPos b (usizeOfInt ((p.position : Int) + (step : Int) * dir)),
          is_pawn_double := false, is_castle := false }
        (isSquareAttackable b p (usizeOfInt ((p.position : Int) + (step : Int) * dir)))).2,
        mv2.is_castle = false := by
      intro mv2 hmv2
      rcases psuedolegalizeMove_mem _ _ _ _ hmv2 with h | h
      · exact hacc mv2 h
      · rw [h]
    split at hmv
    · split at hmv
      · exact hstep mv hmv
      · exact ih (step + 1) _ hstep mv hmv
    · exact hacc mv hmv

theorem computeSlider_castle_false (b : BoardState) (p : Piece) :
    ∀ mv ∈ (computeSlider b p).2, mv.is_castle = false := by
  intro mv hmv
  rw [computeSlider] at hmv
  refine foldl_preserve
    (fun (acc : Bitboard × List Move) => ∀ mv2 ∈ acc.2, mv2.is_castle = false) _
    ?_ (List.range 8) _ (by simp) mv hmv
  intro acc i hacc
  dsimp only
  by_cases h1 : (if p.piece_type = PieceType.Bishop then 4 else 0) ≤ i ∧
      i < (if p.piece_type = PieceType.Rook then 4 else 8)
  · rw [if_pos h1]
    by_cases h2 : 1 ≤ (computeEdgesAt p.position).getD i 0
    · rw [if_pos h2]
      exact raycastLoop_castle_false b p _ _ _ _ hacc
    · rw [if_neg h2]
      exact hacc
  · rw [if_neg h1]
    exact hacc

theorem bitboardToMovelist_castle_false (b : BoardState) (p : Piece) (bb : Bitboard) :
    ∀ mv ∈ bitboardToMovelist b p bb, mv.is_castle = false := by
  intro mv hmv
  rw [bitboardToMovelist] at hmv
  refine foldl_preserve
    (fun (acc : List Move) => ∀ mv2 ∈ acc, mv2.is_castle = false) _
    ?_ (List.range 64) [] (by simp) mv hmv
  intro acc i hacc
  dsimp only
  split
  · intro mv2 hmv2
    rcases List.mem_append.mp hmv2 with h | h
    · exact hacc mv2 h
    · simp at h
      rw [h]
  · exact hacc

theorem getPrecomputedKing_castle_false (b : BoardState) (p : Piece) :
    ∀ mv ∈ (getPrecomputedKing b p).2, mv.is_castle = false := by
  intro mv hmv
  simp only [getPrecomputedKing] at hmv
  exact bitboardToMovelist_castle_false _ _ _ mv hmv

theorem getPrecomputedKnight_castle_false (b : BoardState) (p : Piece) :
    ∀ mv ∈ (getPrecomputedKnight b p).2, mv.is_castle = false := by
  intro mv hmv
  simp only [getPrecomputedKnight] at hmv
  exact bitboardToMovelist_castle_false _ _ _ mv hmv

theorem getPrecomputedPawn_castle_false (b : BoardState) (p : Piece) :
    ∀ mv ∈ (getPrecomputedPawn b p).2, mv.is_castle = false := by
  intro mv hmv
  simp only [getPrecomputedPawn] at hmv
  exact bitboardToMovelist_castle_false _ _ _ mv hmv

theorem perSquareMoves_castle_false (b : BoardState) :
    ∀ entry ∈ perSquareMoves b, ∀ mv ∈ entry.2, mv.is_castle = false := by
  intro entry hentry mv hmv
  simp only [perSquareMoves, List.mem_map] at hentry
  obtain ⟨x, _, rfl⟩ := hentry
  split at hmv
  · split at hmv
    · exact computeSlider_castle_false _ _ mv hmv
    · exact computeSlider_castle_false _ _ mv hmv
    · exact computeSlider_castle_false _ _ mv hmv
    · exact getPrecomputedKing_castle_false _ _ mv hmv
    · exact getPrecomputedKnight_castle_false _ _ mv hmv
    · exact getPrecomputedPawn_castle_false _ _ mv hmv
    · simp at hmv
      rw [hmv, Move.default]
  · simp at hmv
    rw [hmv, Move.default]

theorem setBitRaw_true_testBit (x : Bitboard) (i j : Nat) :
    (x.setBitRaw i true).state.testBit j = (x.state.testBit j || decide (i = j)) := by
  simp [Bitboard.setBitRaw, Nat.testBit_or, Nat.shiftLeft_eq, Nat.testBit_two_pow]

theorem castlingStep_length (b : BoardState) (wc bc : Bool)
    (ml : List (Bitboard × List Move)) (cm : Nat) :
    (castlingStep b wc bc ml cm).length = ml.length := by
  simp only [castlingStep]
  split_ifs <;> simp

theorem castlingStep_preserves_4 (b : BoardState) (wc bc : Bool)
    (ml : List (Bitboard × List Move)) (cm : Nat) (h : cm = 2 ∨ cm = 3) :
    (castlingStep b wc bc ml cm)[4]? = ml[4]? := by
  rcases h with h | h <;> subst h <;>
    simp only [castlingStep] <;> split_ifs <;>
    first
      | rfl
      | rw [List.getElem?_set_ne (by omega)]

theorem castlingStep_preserves_60 (b : BoardState) (wc bc : Bool)
    (ml : List (Bitboard × List Move)) (cm : Nat) (h : cm = 0 ∨ cm = 1) :
    (castlingStep b wc bc ml cm)[60]? = ml[60]? := by
  rcases h with h | h <;> subst h <;>
    simp only [castlingStep] <;> split_ifs <;>
    first
      | rfl
      | rw [List.getElem?_set_ne (by omega)]

theorem whiteCastlingChar (b : BoardState) (wc bc : Bool)
    (ml : List (Bitboard × List Move)) (hlen : ml.length = 64)
    (hnK : (Move.mk 4 6 none false true) ∉ (ml[4]).2)
    (hnQ : (Move.mk 4 2 none false true) ∉ (ml[4]).2) :
    (castleMoveWK ∈
        ((castlingStep b wc bc (castlingStep b wc bc ml 0) 1)[4]?.getD (Bitboard.mk 0, [])).2 ↔
      (b.castling_rights.testBit 0 = true ∧ wc = false ∧
       b.piece_list.getD 4 PieceType.None = PieceType.King ∧
       (b.piece_list.getD 6 PieceType.None = PieceType.None ∧
        b.piece_list.getD 5 PieceType.None = PieceType.None))) ∧
    (castleMoveWQ ∈
        ((castlingStep b wc bc (castlingStep b wc bc ml 0) 1)[4]?.getD (Bitboard.mk 0, [])).2 ↔
      (wc = false ∧ b.piece_list.getD 4 PieceType.None = PieceType.King ∧
       (b.piece_list.getD 2 PieceType.None = PieceType.None ∧
        b.piece_list.getD 3 PieceType.None = PieceType.None ∧
        b.piece_list.getD 1 PieceType.None = PieceType.None) ∧
       (b.castling_rights.testBit 1 = true ∨
        (b.castling_rights.testBit 0 = true ∧
         ¬(b.piece_list.getD 6 PieceType.None = PieceType.None ∧
           b.piece_list.getD 5 PieceType.None = PieceType.None))))) ∧
    (((castlingStep b wc bc (castlingStep b wc bc ml 0) 1)[4]?.getD (Bitboard.mk 0, [])).1.state.testBit 6 = true ↔
      ((ml[4]).1.state.testBit 6 = true ∨
       (b.castling_rights.testBit 0 = true ∧ wc = false ∧
        b.piece_list.getD 4 PieceType.None = PieceType.King ∧
        (b.piece_list.getD 6 PieceType.None = PieceType.None ∧
         b.piece_list.getD 5 PieceType.None = PieceType.None)))) ∧
    (((castlingStep b wc bc (castlingStep b wc bc ml 0) 1)[4]?.getD (Bitboard.mk 0, [])).1.state.testBit 2 = true ↔
      ((ml[4]).1.state.testBit 2 = true ∨
       (wc = false ∧ b.piece_list.getD 4 PieceType.None = PieceType.King ∧
        (b.piece_list.getD 2 PieceType.None = PieceType.None ∧
         b.piece_list.getD 3 PieceType.None = PieceType.None ∧
         b.piece_list.getD 1 PieceType.None = PieceType.None) ∧
        (b.castling_rights.testBit 1 = true ∨
         (b.castling_rights.testBit 0 = true ∧
          ¬(b.piece_list.getD 6 PieceType.None = PieceType.None ∧
            b.piece_list.getD 5 PieceType.None = PieceType.None)))))) := by
  cases hwcv : wc <;>
  cases hb0 : b.castling_rights.testBit 0 <;>
  cases hb1 : b.castling_rights.testBit 1 <;>
  by_cases hk : b.piece_list[4]?.getD PieceType.None = PieceType.King <;>
  by_cases hks : (b.piece_list[6]?.getD PieceType.None = PieceType.None ∧
      b.piece_list[5]?.getD PieceType.None = PieceType.None) <;>
  by_cases hqs : (b.piece_list[2]?.getD PieceType.None = PieceType.None ∧
      b.piece_list[3]?.getD PieceType.None = PieceType.None ∧
      b.piece_list[1]?.getD PieceType.None = PieceType.None) <;>
  · simp only [castlingStep]
    simp [hb0, hb1, hk, hks, hqs, hnK, hnQ, getDq_set_self, List.length_set, hlen,
      List.mem_append, List.getD_eq_getElem?_getD, castleMoveWQ, castleMoveWK,
      setBitRaw_true_testBit]

theorem blackCastlingChar (b : BoardState) (wc bc : Bool)
    (ml : List (Bitboard × List Move)) (hlen : ml.length = 64)
    (hnK : (Move.mk 60 62 none false true) ∉ (ml[60]).2)
    (hnQ : (Move.mk 60 58 none false true) ∉ (ml[60]).2) :
    (castleMoveBK ∈
        ((castlingStep b wc bc (castlingStep b wc bc ml 2) 3)[60]?.getD (Bitboard.mk 0, [])).2 ↔
      (b.castling_rights.testBit 2 = true ∧ bc = false ∧
       b.piece_list.getD 60 PieceType.None = PieceType.King ∧
       (b.piece_list.getD 62 PieceType.None = PieceType.None ∧
        b.piece_list.getD 61 PieceType.None = PieceType.None))) ∧
    (castleMoveBQ ∈
        ((castlingStep b wc bc (castlingStep b wc bc ml 2) 3)[60]?.getD (Bitboard.mk 0, [])).2 ↔
      (bc = false ∧ b.piece_list.getD 60 PieceType.None = PieceType.King ∧
       (b.piece_list.getD 58 PieceType.None = PieceType.None ∧
        b.piece_list.getD 59 PieceType.None = PieceType.None ∧
        b.piece_list.getD 57 PieceType.None = PieceType.None) ∧
       (b.castling_rights.testBit 3 = true ∨
        (b.castling_rights.testBit 2 = true ∧
         ¬(b.piece_list.getD 62 PieceType.None = PieceType.None ∧
           b.piece_list.getD 61 PieceType.None = PieceType.None))))) ∧
    (((castlingStep b wc bc (castlingStep b wc bc ml 2) 3)[60]?.getD (Bitboard.mk 0, [])).1.state.testBit 62 = true ↔
      ((ml[60]).1.state.testBit 62 = true ∨
       (b.castling_rights.testBit 2 = true ∧ bc = false ∧
        b.piece_list.getD 60 PieceType.None = PieceType.King ∧
        (b.piece_list.getD 62 PieceType.None = PieceType.None ∧
         b.piece_list.getD 61 PieceType.None = PieceType.None)))) ∧
    (((castlingStep b wc bc (castlingStep b wc bc ml 2) 3)[60]?.getD (Bitboard.mk 0, [])).1.state.testBit 58 = true ↔
      ((ml[60]).1.state.testBit 58 = true ∨
       (bc = false ∧ b.piece_list.getD 60 PieceType.None = PieceType.King ∧
        (b.piece_list.getD 58 PieceType.None = PieceType.None ∧
         b.piece_list.getD 59 PieceType.None = PieceType.None ∧
         b.piece_list.getD 57 PieceType.None = PieceType.None) ∧
        (b.castling_rights.testBit 3 = true ∨
         (b.castling_rights.testBit 2 = true ∧
          ¬(b.piece_list.getD 62 PieceType.None = PieceType.None ∧
            b.piece_list.getD 61 PieceType.None = PieceType.None)))))) := by
  cases hbcv : bc <;>
  cases hb2 : b.castling_rights.testBit 2 <;>
  cases hb3 : b.castling_rights.testBit 3 <;>
  by_cases hk : b.piece_list[60]?.getD PieceType.None = PieceType.King <;>
  by_cases hks : (b.piece_list[62]?.getD PieceType.None = PieceType.None ∧
      b.piece_list[61]?.getD PieceType.None = PieceType.None) <;>
  by_cases hqs : (b.piece_list[58]?.getD PieceType.None = PieceType.None ∧
      b.piece_list[59]?.getD PieceType.None = PieceType.None ∧
      b.piece_list[57]?.getD PieceType.None = PieceType.None) <;>
  · simp only [castlingStep]
    simp [hb2, hb3, hk, hks, hqs, hnK, hnQ, getDq_set_self, List.length_set, hlen,
      List.mem_append, List.getD_eq_getElem?_getD, castleMoveBQ, castleMoveBK,
      setBitRaw_true_testBit]


theorem adaLoop_nil (em : BoardState → Move → Int → Int → Int → Int × BoardState)
    (oracle : Nat → Bool) (jit : Nat → Int) :
    ∀ (fuel : Nat) (budget : Int) (cnt : Nat) (b : BoardState) (acc : List (Int × Move)),
      adaLoop em oracle jit [] fuel budget cnt b acc = none := by
  intro fuel
  induction fuel with
  | zero => intro budget cnt b acc; simp [adaLoop]
  | succ n ih => intro budget cnt b acc; simp [adaLoop, adaScanLegals, ih]

theorem positionOf_lt_length (l : List Char) (c : Char) (f : Nat)
    (h : positionOf l c = some f) : f < l.length := by
  induction l generalizing f with
  | nil => simp [positionOf] at h
  | cons x t ih =>
    rw [positionOf] at h
    by_cases hx : x = c
    · simp [hx] at h
      simp
      omega
    · simp [hx] at h
      obtain ⟨g, hg, rfl⟩ := h
      have := ih g hg
      simp
      omega

/-!
Claim theorems.
-/

/-- Claim C1 (code bug): make_move followed by unmake_move does not restore
the Position. On c1Board the legal double push c1Move round-trips into a
state that differs from the original: en_passant_turn is left at Some 1
and en_passant_square at Some 24 although both were None, because
make_move sets them and unmake_move never restores en_passant_turn nor,
on this branch, en_passant_square. -/
theorem makeUnmakeRoundtripFails :
    c1Move ∈ pruneMovesForTeam c1Board (getLegalMoves c1Board) Team.White ∧
    (makeMove c1Board c1Move).1 = Except.ok () ∧
    (unmakeMove (makeMove c1Board c1Move).2 c1Move).1 = Except.ok () ∧
    (unmakeMove (makeMove c1Board c1Move).2 c1Move).2 ≠ c1Board ∧
    (unmakeMove (makeMove c1Board c1Move).2 c1Move).2.en_passant_turn = some 1 ∧
    c1Board.en_passant_turn = none ∧
    (unmakeMove (makeMove c1Board c1Move).2 c1Move).2.en_passant_square = some 24 ∧
    c1Board.en_passant_square = none := by decide

/-- Claim C2 (code bug): make_move applying the White king's move from its
home square 4 (with all four castling-rights bits set) clears bits 2 and 3
(Black's rights), leaving castling_rights = 3, instead of the bits 0 and 1
(White's rights, which would leave 12) that the claim states: the king
branches of move_piece are swapped. -/
theorem makeMoveKingCastlingRightsSwapped :
    c2Board.castling_rights = 15 ∧
    (makeMove c2Board c2Move).1 = Except.ok () ∧
    (makeMove c2Board c2Move).2.castling_rights = 3 ∧
    (makeMove c2Board c2Move).2.castling_rights ≠ 12 := by decide

/-- Claim C3, counterexample: on cex3Board only the White KINGSIDE bit is
set (castling_rights = 1, queenside bit 1 clear), yet because the kingside
path is blocked the else branch of the injection loop appends the White
QUEENSIDE castling move 4 to 2 and sets bit 2 of the king square's
bitboard, refuting the claim that no queenside castling move is ever
produced for a side whose queenside castling-rights bit is clear. -/
theorem castlingQueensideWithoutRightsBit :
    cex3Board.castling_rights = 1 ∧
    cex3Board.castling_rights.testBit 1 = false ∧
    castleMoveWQ ∈ ((getPsuedolegalMoves cex3Board)[4]?.getD (Bitboard.mk 0, [])).2 ∧
    ((getPsuedolegalMoves cex3Board)[4]?.getD (Bitboard.mk 0, [])).1.state.testBit 2 = true := by
  decide

/-- Claim C3 (amended): for a Position with a 64-entry piece list, the
castling injection of get_psuedolegal_moves appends a KINGSIDE castling
move for a side iff that side's kingside bit is set, the side is not in
check, its king is on its home square, and the two squares between king
and kingside rook are empty; it appends a QUEENSIDE castling move iff the
side is not in check, its king is on its home square, the three squares
between king and queenside rook are empty, and either the queenside bit is
set or the kingside bit is set with the kingside path blocked (so a
queenside move can arise without the queenside bit). The synthesized
moves are 2-square king moves with is_castle = true and the king square's
bitboard gains the corresponding target bit exactly under the same
conditions. The rook's presence is never checked. -/
theorem castlingInjectionCharacterization (b : BoardState) (hlen : b.piece_list.length = 64) :
    (castleMoveWK ∈ ((getPsuedolegalMoves b)[4]?.getD (Bitboard.mk 0, [])).2 ↔
      (b.castling_rights.testBit 0 = true ∧ isTeamChecked b Team.White = false ∧
       b.piece_list.getD 4 PieceType.None = PieceType.King ∧
       (b.piece_list.getD 6 PieceType.None = PieceType.None ∧
        b.piece_list.getD 5 PieceType.None = PieceType.None))) ∧
    (castleMoveWQ ∈ ((getPsuedolegalMoves b)[4]?.getD (Bitboard.mk 0, [])).2 ↔
      (isTeamChecked b Team.White = false ∧
       b.piece_list.getD 4 PieceType.None = PieceType.King ∧
       (b.piece_list.getD 2 PieceType.None = PieceType.None ∧
        b.piece_list.getD 3 PieceType.None = PieceType.None ∧
        b.piece_list.getD 1 PieceType.None = PieceType.None) ∧
       (b.castling_rights.testBit 1 = true ∨
        (b.castling_rights.testBit 0 = true ∧
         ¬(b.piece_list.getD 6 PieceType.None = PieceType.None ∧
           b.piece_list.getD 5 PieceType.None = PieceType.None))))) ∧
    (castleMoveBK ∈ ((getPsuedolegalMoves b)[60]?.getD (Bitboard.mk 0, [])).2 ↔
      (b.castling_rights.testBit 2 = true ∧ isTeamChecked b Team.Black = false ∧
       b.piece_list.getD 60 PieceType.None = PieceType.King ∧
       (b.piece_list.getD 62 PieceType.None = PieceType.None ∧
        b.piece_list.getD 61 PieceType.None = PieceType.None))) ∧
    (castleMoveBQ ∈ ((getPsuedolegalMoves b)[60]?.getD (Bitboard.mk 0, [])).2 ↔
      (isTeamChecked b Team.Black = false ∧
       b.piece_list.getD 60 PieceType.None = PieceType.King ∧
       (b.piece_list.getD 58 PieceType.None = PieceType.None ∧
        b.piece_list.getD 59 PieceType.None = PieceType.None ∧
        b.piece_list.getD 57 PieceType.None = PieceType.None) ∧
       (b.castling_rights.testBit 3 = true ∨
        (b.castling_rights.testBit 2 = true ∧
         ¬(b.piece_list.getD 62 PieceType.None = PieceType.None ∧
           b.piece_list.getD 61 PieceType.None = PieceType.None))))) ∧
    (((getPsuedolegalMoves b)[4]?.getD (Bitboard.mk 0, [])).1.state.testBit 6 = true ↔
      (((perSquareMoves b)[4]?.getD (Bitboard.mk 0, [])).1.state.testBit 6 = true ∨
       (b.castling_rights.testBit 0 = true ∧ isTeamChecked b Team.White = false ∧
        b.piece_list.getD 4 PieceType.None = PieceType.King ∧
        (b.piece_list.getD 6 PieceType.None = PieceType.None ∧
         b.piece_list.getD 5 PieceType.None = PieceType.None)))) ∧
    (((getPsuedolegalMoves b)[4]?.getD (Bitboard.mk 0, [])).1.state.testBit 2 = true ↔
      (((perSquareMoves b)[4]?.getD (Bitboard.mk 0, [])).1.state.testBit 2 = true ∨
       (isTeamChecked b Team.White = false ∧
        b.piece_list.getD 4 PieceType.None = PieceType.King ∧
        (b.piece_list.getD 2 PieceType.None = PieceType.None ∧
         b.piece_list.getD 3 PieceType.None = PieceType.None ∧
         b.piece_list.getD 1 PieceType.None = PieceType.None) ∧
        (b.castling_rights.testBit 1 = true ∨
         (b.castling_rights.testBit 0 = true ∧
          ¬(b.piece_list.getD 6 PieceType.None = PieceType.None ∧
            b.piece_list.getD 5 PieceType.None = PieceType.None)))))) ∧
    (((getPsuedolegalMoves b)[60]?.getD (Bitboard.mk 0, [])).1.state.testBit 62 = true ↔
      (((perSquareMoves b)[60]?.getD (Bitboard.mk 0, [])).1.state.testBit 62 = true ∨
       (b.castling_rights.testBit 2 = true ∧ isTeamChecked b Team.Black = false ∧
        b.piece_list.getD 60 PieceType.None = PieceType.King ∧
        (b.piece_list.getD 62 PieceType.None = PieceType.None ∧
         b.piece_list.getD 61 PieceType.None = PieceType.None)))) ∧
    (((getPsuedolegalMoves b)[60]?.getD (Bitboard.mk 0, [])).1.state.testBit 58 = true ↔
      (((perSquareMoves b)[60]?.getD (Bitboard.mk 0, [])).1.state.testBit 58 = true ∨
       (isTeamChecked b Team.Black = false ∧
        b.piece_list.getD 60 PieceType.None = PieceType.King ∧
        (b.piece_list.getD 58 PieceType.None = PieceType.None ∧
         b.piece_list.getD 59 PieceType.None = PieceType.None ∧
         b.piece_list.getD 57 PieceType.None = PieceType.None) ∧
        (b.castling_rights.testBit 3 = true ∨
         (b.castling_rights.testBit 2 = true ∧
          ¬(b.piece_list.getD 62 PieceType.None = PieceType.None ∧
            b.piece_list.getD 61 PieceType.None = PieceType.None)))))) := by
  have hlb : (perSquareMoves b).length = 64 := by
    simp [perSquareMoves, hlen]
  have hin4 : (4 : Nat) < (perSquareMoves b).length := by omega
  have hin60 : (60 : Nat) < (perSquareMoves b).length := by omega
  have hexp : getPsuedolegalMoves b =
      castlingStep b (isTeamChecked b Team.White) (isTeamChecked b Team.Black)
        (castlingStep b (isTeamChecked b Team.White) (isTeamChecked b Team.Black)
          (castlingStep b (isTeamChecked b Team.White) (isTeamChecked b Team.Black)
            (castlingStep b (isTeamChecked b Team.White) (isTeamChecked b Team.Black)
              (perSquareMoves b) 0) 1) 2) 3 := by
    simp only [getPsuedolegalMoves, addCastling, List.foldl_cons, List.foldl_nil]
  have h4 : (getPsuedolegalMoves b)[4]? =
      (castlingStep b (isTeamChecked b Team.White) (isTeamChecked b Team.Black)
        (castlingStep b (isTeamChecked b Team.White) (isTeamChecked b Team.Black)
          (perSquareMoves b) 0) 1)[4]? := by
    rw [hexp, castlingStep_preserves_4 _ _ _ _ 3 (Or.inr rfl),
      castlingStep_preserves_4 _ _ _ _ 2 (Or.inl rfl)]
  have hX01len : (castlingStep b (isTeamChecked b Team.White) (isTeamChecked b Team.Black)
      (castlingStep b (isTeamChecked b Team.White) (isTeamChecked b Team.Black)
        (perSquareMoves b) 0) 1).length = 64 := by
    rw [castlingStep_length, castlingStep_length, hlb]
  have hin60X : (60 : Nat) <
      (castlingStep b (isTeamChecked b Team.White) (isTeamChecked b Team.Black)
        (castlingStep b (isTeamChecked b Team.White) (isTeamChecked b Team.Black)
          (perSquareMoves b) 0) 1).length := by omega
  have hX60opt : (castlingStep b (isTeamChecked b Team.White) (isTeamChecked b Team.Black)
      (castlingStep b (isTeamChecked b Team.White) (isTeamChecked b Team.Black)
        (perSquareMoves b) 0) 1)[60]? = (perSquareMoves b)[60]? := by
    rw [castlingStep_preserves_60 _ _ _ _ 1 (Or.inr rfl),
      castlingStep_preserves_60 _ _ _ _ 0 (Or.inl rfl)]
  have hX60 : (castlingStep b (isTeamChecked b Team.White) (isTeamChecked b Team.Black)
      (castlingStep b (isTeamChecked b Team.White) (isTeamChecked b Team.Black)
        (perSquareMoves b) 0) 1)[60] = (perSquareMoves b)[60] := by
    have h1 := hX60opt
    rw [List.getElem?_eq_getElem hin60X, List.getElem?_eq_getElem hin60] at h1
    exact Option.some.inj h1
  have hconv4 : (perSquareMoves b)[4]?.getD (Bitboard.mk 0, ([] : List Move)) =
      (perSquareMoves b)[4] := by
    simp [List.getElem?_eq_getElem hin4]
  have hconv60 : (perSquareMoves b)[60]?.getD (Bitboard.mk 0, ([] : List Move)) =
      (perSquareMoves b)[60] := by
    simp [List.getElem?_eq_getElem hin60]
  have hnWK : (Move.mk 4 6 none false true) ∉ ((perSquareMoves b)[4]).2 := fun h => by
    simpa using perSquareMoves_castle_false b _ (List.getElem_mem hin4) _ h
  have hnWQ : (Move.mk 4 2 none false true) ∉ ((perSquareMoves b)[4]).2 := fun h => by
    simpa using perSquareMoves_castle_false b _ (List.getElem_mem hin4) _ h
  have hnBK : (Move.mk 60 62 none false true) ∉ ((perSquareMoves b)[60]).2 := fun h => by
    simpa using perSquareMoves_castle_false b _ (List.getElem_mem hin60) _ h
  have hnBQ : (Move.mk 60 58 none false true) ∉ ((perSquareMoves b)[60]).2 := fun h => by
    simpa using perSquareMoves_castle_false b _ (List.getElem_mem hin60) _ h
  have hw := whiteCastlingChar b (isTeamChecked b Team.White) (isTeamChecked b Team.Black)
    (perSquareMoves b) hlb hnWK hnWQ
  have hb := blackCastlingChar b (isTeamChecked b Team.White) (isTeamChecked b Team.Black)
    (castlingStep b (isTeamChecked b Team.White) (isTeamChecked b Team.Black)
      (castlingStep b (isTeamChecked b Team.White) (isTeamChecked b Team.Black)
        (perSquareMoves b) 0) 1) hX01len
    (by rw [hX60]; exact hnBK) (by rw [hX60]; exact hnBQ)
  rw [hX60] at hb
  refine ⟨?_, ?_, ?_, ?_, ?_, ?_, ?_, ?_⟩
  · rw [h4]; exact hw.1
  · rw [h4]; exact hw.2.1
  · rw [hexp]; exact hb.1
  · rw [hexp]; exact hb.2.1
  · rw [h4, hconv4]; exact hw.2.2.1
  · rw [h4, hconv4]; exact hw.2.2.2
  · rw [hexp, hconv60]; exact hb.2.2.1
  · rw [hexp, hconv60]; exact hb.2.2.2


/-- Witness for the castling characterization, instantiated at cex3Board. -/
theorem castlingInjectionCharacterizationWitness :
    castleMoveWK ∈ ((getPsuedolegalMoves cex3Board)[4]?.getD (Bitboard.mk 0, [])).2 ↔
      (cex3Board.castling_rights.testBit 0 = true ∧
       isTeamChecked cex3Board Team.White = false ∧
       cex3Board.piece_list.getD 4 PieceType.None = PieceType.King ∧
       (cex3Board.piece_list.getD 6 PieceType.None = PieceType.None ∧
        cex3Board.piece_list.getD 5 PieceType.None = PieceType.None)) :=
  (castlingInjectionCharacterization cex3Board (by decide)).1

/-- Claim C4, counterexample: applying the legal double push c1Move (a2 to
a4, squares 8 to 24) stores the pawn's LANDING square 24 in
en_passant_square, not the passed-over square 16 = start + 8 the claim
names. -/
theorem enPassantSquareIsLandingSquare :
    c1Move.is_pawn_double = true ∧
    c1Move ∈ pruneMovesForTeam c1Board (getLegalMoves c1Board) Team.White ∧
    (makeMove c1Board c1Move).2.en_passant_square = some 24 ∧
    c1Move.start + 8 = 16 ∧
    (makeMove c1Board c1Move).2.en_passant_square ≠ some 16 := by decide

/-- Claim C4 (amended): immediately after make_move applies a move with
is_pawn_double = true, en_passant_square holds the landing square m.target
when the mover was White (active_team not Black), and is cleared to None
in the same call when the mover was Black; en_passant_turn always receives
the pre-move turn_clock (which with compute_pawn's turn-clock gate bounds
any en-passant window to Black's immediate reply). -/
theorem makeMovePawnDoubleEnPassant (b : BoardState) (m : Move)
    (hok : (makeMove b m).1 = Except.ok ())
    (hd : m.is_pawn_double = true) :
    (makeMove b m).2.en_passant_square =
      (if b.active_team = Team.Black then none else some m.target) ∧
    (makeMove b m).2.en_passant_turn = some b.turn_clock := by
  by_cases h1 : m.start = m.target
  · simp [makeMove, h1] at hok
  by_cases h2 : getSquareTeam b m.start = Team.None
  · simp [makeMove, h1, h2] at hok
  by_cases h3 : getSquareTeam b m.target = getSquareTeam b m.start
  · simp [makeMove, h1, h2, h3] at hok
  constructor
  · simp [makeMove, h1, h2, h3, hd,
      apply_ite BoardState.en_passant_square, apply_ite BoardState.active_team,
      ucb_en_passant_square, mp_en_passant_square, ucb_active_team, mp_active_team]
  · simp [makeMove, h1, h2, h3, hd,
      apply_ite BoardState.en_passant_turn, apply_ite BoardState.turn_clock,
      apply_ite BoardState.active_team,
      ucb_en_passant_turn, mp_en_passant_turn, ucb_turn_clock, mp_turn_clock,
      ucb_active_team, mp_active_team]

/-- Witness for the pawn-double en-passant theorem at c1Board / c1Move. -/
theorem makeMovePawnDoubleEnPassantWitness :
    (makeMove c1Board c1Move).2.en_passant_square =
      (if c1Board.active_team = Team.Black then none else some c1Move.target) ∧
    (makeMove c1Board c1Move).2.en_passant_turn = some c1Board.turn_clock :=
  makeMovePawnDoubleEnPassant c1Board c1Move (by decide) (by decide)

/-- Claim C5: make_move rejects a null move with NotAMove, a move from an
empty square with NoUnit, and a move onto a friendly piece with
AttackedAlly, and in each error case returns the Position unchanged. -/
theorem makeMoveErrorCases (b : BoardState) (m : Move) :
    (m.start = m.target → makeMove b m = (Except.error MoveError.NotAMove, b)) ∧
    (m.start ≠ m.target → getSquareTeam b m.start = Team.None →
      makeMove b m = (Except.error MoveError.NoUnit, b)) ∧
    (m.start ≠ m.target → getSquareTeam b m.start ≠ Team.None →
      getSquareTeam b m.target = getSquareTeam b m.start →
      makeMove b m = (Except.error MoveError.AttackedAlly, b)) := by
  refine ⟨?_, ?_, ?_⟩
  · intro h; simp [makeMove, h]
  · intro h1 h2; simp [makeMove, h1, h2]
  · intro h1 h2 h3; simp [makeMove, h1, h2, h3]

/-- Witness: the three error cases exercised on the starting position. -/
theorem makeMoveErrorCasesWitness :
    makeMove startBoard (Move.mk 0 0 none false false) =
      (Except.error MoveError.NotAMove, startBoard) ∧
    makeMove startBoard (Move.mk 16 24 none false false) =
      (Except.error MoveError.NoUnit, startBoard) ∧
    makeMove startBoard (Move.mk 0 8 none false false) =
      (Except.error MoveError.AttackedAlly, startBoard) :=
  ⟨(makeMoveErrorCases startBoard (Move.mk 0 0 none false false)).1 rfl,
   (makeMoveErrorCases startBoard (Move.mk 16 24 none false false)).2.1
     (by decide) (by decide),
   (makeMoveErrorCases startBoard (Move.mk 0 8 none false false)).2.2
     (by decide) (by decide) (by decide)⟩

/-- Claim C6, counterexample: on the stalemate position staleBoard (Black
to move, zero legal moves, not in check, so the sticky checkmate flag
stays false) Ada's iterative-deepening loop never exits, for any amount of
fuel, even with a clock oracle that reports the time limit as always
already exceeded: the time check sits inside the per-move scan of an empty
legals list. So get_move does not return None: it does not return. -/
theorem adaStalemateNeverTerminates :
    ¬ ∃ n : Nat, (adaGetMove em0 oracleTrue jit0 staleBoard n).isSome := by
  rintro ⟨n, hn⟩
  have hpr : pruneMovesForTeamMut staleBoard (getLegalMoves staleBoard)
      staleBoard.active_team = ([], staleBoard) := by decide
  have hcm : staleBoard.active_team_checkmate = false := by decide
  simp only [adaGetMove] at hn
  rw [hpr] at hn
  simp [hcm, adaLoop_nil] at hn

/-- Claim C6 (amended): with zero legal moves for the side to move, Randy
and Matt return None; Ada returns None when the sticky checkmate flag was
set by the pruning pass (checkmate), but when the flag stays false
(stalemate) its deepening loop never exits whatever the fuel, evaluator,
clock oracle or jitter. -/
theorem noLegalMovesStrategies :
    (∀ (b : BoardState) (k : Nat),
      pruneMovesForTeam b (getLegalMoves b) b.active_team = [] →
      pickRandomMove b k = none) ∧
    (∀ (em : BoardState → Move → Int → Int → Int → Int × BoardState)
       (b : BoardState) (budget : Int),
      pruneMovesForTeam b (getLegalMoves b) b.active_team = [] →
      mattGetMove em b budget = none) ∧
    (∀ (em : BoardState → Move → Int → Int → Int → Int × BoardState)
       (oracle : Nat → Bool) (jit : Nat → Int) (b : BoardState) (fuel : Nat),
      (pruneMovesForTeamMut b (getLegalMoves b) b.active_team).2.active_team_checkmate = true →
      adaGetMove em oracle jit b fuel = some none) ∧
    (∀ (em : BoardState → Move → Int → Int → Int → Int × BoardState)
       (oracle : Nat → Bool) (jit : Nat → Int) (b : BoardState) (fuel : Nat),
      (pruneMovesForTeamMut b (getLegalMoves b) b.active_team).1 = [] →
      (pruneMovesForTeamMut b (getLegalMoves b) b.active_team).2.active_team_checkmate = false →
      adaGetMove em oracle jit b fuel = none) := by
  refine ⟨?_, ?_, ?_, ?_⟩
  · intro b k h
    simp [pickRandomMove, h]
  · intro em b budget h
    simp [mattGetMove, h, sortByEvalDesc]
  · intro em oracle jit b fuel h
    simp [adaGetMove, h]
  · intro em oracle jit b fuel h0 hcm
    simp [adaGetMove, h0, hcm, adaLoop_nil]

/-- Witness: the strategy results on the concrete stalemate and checkmate
positions. -/
theorem noLegalMovesStrategiesWitness :
    pickRandomMove staleBoard 0 = none ∧
    mattGetMove em0 staleBoard 3 = none ∧
    adaGetMove em0 oracleTrue jit0 mateBoard 5 = some none ∧
    adaGetMove em0 oracleTrue jit0 staleBoard 7 = none :=
  ⟨noLegalMovesStrategies.1 staleBoard 0 (by decide),
   noLegalMovesStrategies.2.1 em0 staleBoard 3 (by decide),
   noLegalMovesStrategies.2.2.1 em0 oracleTrue jit0 mateBoard 5 (by decide),
   noLegalMovesStrategies.2.2.2 em0 oracleTrue jit0 staleBoard 7 (by decide) (by decide)⟩

/-- Claim C7, counterexample: the out-of-board string "a9" neither panics
nor yields None: al_notation_to_bit_idx returns Some(64), an index outside
0..63, because the rank digit is never range checked. -/
theorem alNotationOutOfBoardNotNone :
    alNotationToBitIdx "a9" = some (some 64) ∧ ¬ (64 < 64) := by decide

/-- Claim C7 (amended): al_notation_to_bit_idx panics (indexes out of
bounds) on the empty string and on any 1-character string whose character
is a file letter; it returns None when the first character is not a file
letter, or when a second character exists but is not a decimal digit; when
the first character is file letter f and the second is digit d with
1 <= d <= 8 it returns the in-board index (d-1)*8+f < 64 — but digits
outside 1..8 are not rejected (see the counterexample). -/
theorem alNotationToBitIdxChar (s : String) :
    (s.data = [] → alNotationToBitIdx s = none) ∧
    (∀ c rest, s.data = c :: rest → positionOf fileChars c = none →
      alNotationToBitIdx s = some none) ∧
    (∀ c f, s.data = [c] → positionOf fileChars c = some f →
      alNotationToBitIdx s = none) ∧
    (∀ c0 c1 rest f, s.data = c0 :: c1 :: rest → positionOf fileChars c0 = some f →
      charToDigit10 c1 = none → alNotationToBitIdx s = some none) ∧
    (∀ c0 c1 rest f d, s.data = c0 :: c1 :: rest → positionOf fileChars c0 = some f →
      charToDigit10 c1 = some d → 1 ≤ d → d ≤ 8 →
      alNotationToBitIdx s = some (some ((d - 1) * 8 + f)) ∧ (d - 1) * 8 + f < 64) := by
  refine ⟨?_, ?_, ?_, ?_, ?_⟩
  · intro h; simp [alNotationToBitIdx, h]
  · intro c rest h hpos; simp [alNotationToBitIdx, h, hpos]
  · intro c f h hpos; simp [alNotationToBitIdx, h, hpos]
  · intro c0 c1 rest f h hpos hdig; simp [alNotationToBitIdx, h, hpos, hdig]
  · intro c0 c1 rest f d h hpos hdig hd1 hd8
    have hf : f < 8 := by
      have := positionOf_lt_length fileChars c0 f hpos
      simpa [fileChars] using this
    constructor
    · simp [alNotationToBitIdx, h, hpos, hdig]
      simp only [U32MOD]
      omega
    · omega

/-- Witness: the panic case on the empty string and the valid case "f5"
(file 5, rank 5, square 37). -/
theorem alNotationToBitIdxCharWitness :
    alNotationToBitIdx "" = none ∧
    (alNotationToBitIdx "f5" = some (some ((5 - 1) * 8 + 5)) ∧ (5 - 1) * 8 + 5 < 64) :=
  ⟨(alNotationToBitIdxChar "").1 rfl,
   (alNotationToBitIdxChar "f5").2.2.2.2 'f' '5' [] 5 5 rfl (by decide)
     (by decide) (by decide) (by decide)⟩

/-- Claim C8: converting any square 0..63 to algebraic notation and parsing
the result back yields the same square (the inner Some is the parser's
result, the outer layer records that it did not panic). -/
theorem alNotationRoundTrip : ∀ s : Fin 64,
    (bitIdxToAlNotation s.val).bind alNotationToBitIdx = some (some s.val) := by decide

/-- Claim C9: parsing the standard starting FEN and serializing the result
reproduces the original string byte for byte. -/
theorem fenRoundTripStart :
    fromFen startFen = some (Except.ok startBoard) ∧ asFen startBoard = startFen :=
  ⟨rfl, rfl⟩

/-- Claim C10: make_move never consults active_team. For any Position with
a 64-entry piece list and any move between distinct on-board squares with
a piece on the start square and no same-team piece on the target, it
returns Ok, bumps the ply clock, and puts the moving piece type on the
target square — whatever active_team is. -/
theorem makeMoveIgnoresActiveTeam (b : BoardState) (m : Move)
    (h1 : m.start ≠ m.target)
    (h2 : getSquareTeam b m.start ≠ Team.None)
    (h3 : getSquareTeam b m.target ≠ getSquareTeam b m.start)
    (hlen : b.piece_list.length = 64)
    (ht : m.target < 64) :
    (makeMove b m).1 = Except.ok () ∧
    (makeMove b m).2.ply_clock = b.ply_clock + 1 ∧
    (makeMove b m).2.piece_list.getD m.target PieceType.None =
      b.piece_list.getD m.start PieceType.None := by
  refine ⟨?_, ?_, ?_⟩
  · simp [makeMove, h1, h2, h3]
  · simp [makeMove, h1, h2, h3, apply_ite BoardState.ply_clock,
      ucb_ply_clock, mp_ply_clock]
  · simp only [makeMove, h1, h2, h3, ite_false, ite_true, ne_eq, not_false_iff]
    simp [h1, h2, h3, ucb_piece_list, mp_piece_list, apply_ite BoardState.piece_list]
    split_ifs with hc6 hc2 hc58 hc62
    · rw [hc6.2, getDq_set_ne _ 5 6 _ _ (by omega), getDq_set_ne _ 7 6 _ _ (by omega)]
      rw [← hc6.2, getDq_set_self _ _ _ _ (by simp [hlen]; omega)]
    · rw [hc2.2, getDq_set_ne _ 3 2 _ _ (by omega), getDq_set_ne _ 0 2 _ _ (by omega)]
      rw [← hc2.2, getDq_set_self _ _ _ _ (by simp [hlen]; omega)]
    · rw [hc58.2, getDq_set_ne _ 59 58 _ _ (by omega), getDq_set_ne _ 56 58 _ _ (by omega)]
      rw [← hc58.2, getDq_set_self _ _ _ _ (by simp [hlen]; omega)]
    · rw [hc62.2, getDq_set_ne _ 61 62 _ _ (by omega), getDq_set_ne _ 63 62 _ _ (by omega)]
      rw [← hc62.2, getDq_set_self _ _ _ _ (by simp [hlen]; omega)]
    · rw [getDq_set_self _ _ _ _ (by simp [hlen]; omega)]

/-- Witness: on the starting position (White to move) the BLACK pawn move
a7 to a6 (48 to 40) is applied by make_move without any turn check. -/
theorem makeMoveIgnoresActiveTeamWitness :
    startBoard.active_team = Team.White ∧
    getSquareTeam startBoard 48 = Team.Black ∧
    ((makeMove startBoard (Move.mk 48 40 none false false)).1 = Except.ok () ∧
     (makeMove startBoard (Move.mk 48 40 none false false)).2.ply_clock =
       startBoard.ply_clock + 1 ∧
     (makeMove startBoard (Move.mk 48 40 none false false)).2.piece_list.getD 40
         PieceType.None =
       startBoard.piece_list.getD 48 PieceType.None) :=
  ⟨by decide, by decide,
   makeMoveIgnoresActiveTeam startBoard (Move.mk 48 40 none false false)
     (by decide) (by decide) (by decide) (by decide) (by decide)⟩
